import Mathlib

/-!
Verification of the spotplots proximity-transit core against its
natural-language specification.

The embedding below follows `src/app/lib/get_nearby_stops.ts` and
`src/app/lib/get_nearby_stop_times.ts`.  JavaScript numbers are modelled
as exact rationals (`ℚ`); the transcendental Haversine distance
(`calculateDistance`) and the cosine-scaled bounding-box ranges are
abstracted as parameters, and everything downstream of them is embedded
exactly.  JavaScript `Map` objects (insertion-ordered, `set` overwrites
in place) are modelled as association lists, Mongo `$addToSet` /
`new Set()` enumeration as first-occurrence deduplication, and the
stable JavaScript `Array.prototype.sort` as `List.insertionSort`.
-/

/-- `Math.round` on exact rationals: JavaScript rounds half toward `+∞`,
i.e. `Math.round x = ⌊x + 1/2⌋`.  Computed on the numerator/denominator
representation (`q + 1/2 = (2 num + den) / (2 den)`) so that concrete
values reduce; `jsRound_eq` states the textbook form. -/
def jsRound (q : ℚ) : ℤ := (mkRat (2 * q.num + (q.den : ℤ)) (2 * q.den)).floor

/-- `Math.round(x * 100) / 100` — round to 2 decimal places, as used for
the `distance` field of a `NearbyStop` (get_nearby_stops.ts line 93).
`q * 100` is `(100 num) / den`; `round2_eq` states the textbook form. -/
def round2 (q : ℚ) : ℚ := mkRat (jsRound (mkRat (q.num * 100) q.den)) 100

/-- A document of the `stops` collection (fields used by the Locator). -/
structure StopDoc where
  stop_id : String
  stop_code : Int
  stop_name : String
  stop_lat : ℚ
  stop_lon : ℚ
deriving DecidableEq, Repr

/-- The `NearbyStop` interface of get_nearby_stops.ts: a stop annotated
with its computed distance (metres, rounded to 2 decimal places).  The
`GetNearbyStopTimesFromStopsOptions.stops` entries of
get_nearby_stop_times.ts have the same shape, so this type is also the
aggregator's input stop type. -/
structure NearbyStop where
  stop_id : String
  stop_code : Int
  stop_name : String
  stop_lat : ℚ
  stop_lon : ℚ
  distance : ℚ
deriving DecidableEq, Repr

/-- The comparator `(a, b) => a.distance - b.distance` used to sort stop
lists ascending by distance. -/
def distLe (a b : NearbyStop) : Prop := a.distance ≤ b.distance

instance : DecidableRel distLe :=
  fun a b => inferInstanceAs (Decidable (a.distance ≤ b.distance))

instance : IsTotal NearbyStop distLe := ⟨fun a b => le_total a.distance b.distance⟩

instance : IsTrans NearbyStop distLe := ⟨fun _ _ _ => le_trans⟩

/-- The bounding-box prefilter query of `getNearbyStopsManual`
(get_nearby_stops.ts lines 69-78): `stop_lat` within
`[latMin, latMax] = [lat - latRange, lat + latRange]`, `stop_lon` within
`[lngMin, lngMax] = [lng - lngRange, lng + lngRange]`, capped at
`actualLimit` documents.  The four bounds are parameters (in the source
`latRange = maxDistance / 111000` and
`lngRange = maxDistance / (111000 * cos lat)` involve the transcendental
cosine, which this embedding abstracts). -/
def boxStops (db : List StopDoc) (latMin latMax lngMin lngMax : ℚ)
    (actualLimit : Nat) : List StopDoc :=
  (db.filter (fun s =>
    decide (latMin ≤ s.stop_lat) && decide (s.stop_lat ≤ latMax) &&
    decide (lngMin ≤ s.stop_lon) && decide (s.stop_lon ≤ lngMax))).take
    actualLimit

/-- The `NearbyStop` built from a stop document whose exact distance is
`dq` (get_nearby_stops.ts lines 87-94). -/
def mkNearbyStop (s : StopDoc) (dq : ℚ) : NearbyStop :=
  ⟨s.stop_id, s.stop_code, s.stop_name, s.stop_lat, s.stop_lon, round2 dq⟩

/-- The exact-distance filter loop of `getNearbyStopsManual`
(get_nearby_stops.ts lines 83-96): keep stops whose **unrounded**
distance is `≤ maxDistance` (inclusive), storing the rounded distance.
`d lat lon` abstracts `calculateDistance(lat0, lng0, lat, lon)`. -/
def distFilter (d : ℚ → ℚ → ℚ) (maxDistance : ℚ) (stops : List StopDoc) :
    List NearbyStop :=
  stops.filterMap (fun s =>
    if d s.stop_lat s.stop_lon ≤ maxDistance then
      some (mkNearbyStop s (d s.stop_lat s.stop_lon))
    else none)

/-- `getNearbyStopsManual` (get_nearby_stops.ts lines 55-110): bounding
box prefilter with query limit `max (limit*10) 1000`, exact-distance
filter, stable ascending sort by `distance`, truncation to `limit`. -/
def getNearbyStopsManual (d : ℚ → ℚ → ℚ) (db : List StopDoc)
    (latMin latMax lngMin lngMax maxDistance : ℚ) (limit : Nat) : List NearbyStop :=
  let stops := boxStops db latMin latMax lngMin lngMax (max (limit * 10) 1000)
  let nearbyStops := distFilter d maxDistance stops
  (List.insertionSort distLe nearbyStops).take limit

/-- `getNearbyStops` (get_nearby_stops.ts lines 25-49): returns `[]`
when the stops collection is empty (`countDocuments === 0`), otherwise
delegates to the manual strategy (the 2dsphere index is never used:
"Use manual distance calculation since stops don't have proper 2dsphere
location field"). -/
def getNearbyStops (d : ℚ → ℚ → ℚ) (db : List StopDoc)
    (latMin latMax lngMin lngMax maxDistance : ℚ) (limit : Nat) : List NearbyStop :=
  if db.length = 0 then []
  else getNearbyStopsManual d db latMin latMax lngMin lngMax maxDistance limit

/-! ## Schedule Data Access records (get_nearby_stop_times.ts lines 6-88)

Only the fields the aggregation pipeline reads are retained: the other
schema fields (`arrival_time`, `service_id`, `route_long_name`, ...) are
never consulted by the functions under verification. -/

/-- A document of the `stop_times` collection. -/
structure StopTimeDoc where
  trip_id : String
  stop_id : String
deriving DecidableEq, Repr

/-- A document of the `trips` collection. -/
structure TripDoc where
  trip_id : String
  route_id : String
deriving DecidableEq, Repr

/-- A document of the `routes` collection.  `route_short_name` is
optional in the schema. -/
structure RouteDoc where
  route_id : String
  route_short_name : Option String
deriving DecidableEq, Repr

/-- The three read-only schedule collections, in document order. -/
structure ScheduleDB where
  stop_times : List StopTimeDoc
  trips : List TripDoc
  routes : List RouteDoc
deriving DecidableEq, Repr

/-- Helper for `dedupFirst`: drop every element already in `seen`, keep
the first occurrence of each new one. -/
def dedupFirstAux (seen : List String) : List String → List String
  | [] => []
  | x :: xs =>
    if x ∈ seen then dedupFirstAux seen xs
    else x :: dedupFirstAux (x :: seen) xs

/-- First-occurrence deduplication: the enumeration order of a Mongo
`$addToSet` accumulator / a JavaScript `new Set(...)` built by insertion. -/
def dedupFirst (l : List String) : List String := dedupFirstAux [] l

/-- `Map.prototype.set`: overwrite in place when the key is present,
append otherwise. -/
def mapSet {α : Type} (m : List (String × α)) (k : String) (v : α) :
    List (String × α) :=
  if (m.lookup k).isSome then
    m.map (fun p => if p.1 = k then (k, v) else p)
  else m ++ [(k, v)]

/-- The `RouteDeparture` interface (get_nearby_stop_times.ts lines 90-93). -/
structure RouteDeparture where
  route : String
  departures : Nat
deriving DecidableEq, Repr

/-- The `RoutesResponse` interface (get_nearby_stop_times.ts lines 95-100). -/
structure RoutesResponse where
  routes : List RouteDeparture
  totalRoutes : Nat
  totalDepartures : Nat
  csv : String
deriving DecidableEq, Repr

/-- The comparator `(a, b) => b.departures - a.departures` used to sort
the final route list descending by departures. -/
def depGe (a b : RouteDeparture) : Prop := b.departures ≤ a.departures

instance : DecidableRel depGe :=
  fun a b => inferInstanceAs (Decidable (b.departures ≤ a.departures))

instance : IsTotal RouteDeparture depGe := ⟨fun a b => le_total b.departures a.departures⟩

instance : IsTrans RouteDeparture depGe := ⟨fun _ _ _ h h' => le_trans h' h⟩

/-- `Math.round(tripCount / 7)` (get_nearby_stop_times.ts line 568):
the daily average derived from a weekly trip count, `tripCount / 7`
written as the rational `mkRat tripCount 7`. -/
def dailyDeparturesOf (tripCount : Nat) : Nat :=
  (jsRound (mkRat tripCount 7)).toNat

/-- Stable ascending re-sort of the input stop list
(`[...stops].sort((a, b) => a.distance - b.distance)`,
get_nearby_stop_times.ts line 474). -/
def sortStops (stops : List NearbyStop) : List NearbyStop :=
  List.insertionSort distLe stops

/-- Query 1 (get_nearby_stop_times.ts lines 483-495): one batched
aggregate over `stop_times` — `$match stop_id ∈ stopIds`, `$group` by
`stop_id` with `trip_ids: $addToSet trip_id`.  Groups are listed in
first-document order and each set in first-occurrence order. -/
def allStopTrips (db : ScheduleDB) (stopIds : List String) :
    List (String × List String) :=
  let filtered := db.stop_times.filter (fun st => decide (st.stop_id ∈ stopIds))
  (dedupFirst (filtered.map (·.stop_id))).map (fun sid =>
    (sid, dedupFirst ((filtered.filter (fun st => decide (st.stop_id = sid))).map (·.trip_id))))

/-- `[...new Set(allStopTrips.flatMap(stop => stop.trip_ids))]`
(get_nearby_stop_times.ts line 504). -/
def allTripIdsOf (ast : List (String × List String)) : List String :=
  dedupFirst (ast.flatMap (·.2))

/-- One group of the second aggregate: `_id` (the route id), the
`$first` route document produced by `$lookup` + `$unwind` with
`preserveNullAndEmptyArrays`, and the `$addToSet` of trip ids. -/
structure RouteGroup where
  rid : String
  route_info : Option RouteDoc
  trip_ids : List String
deriving DecidableEq, Repr

/-- Query 2 (get_nearby_stop_times.ts lines 507-534): one batched
aggregate over `trips` — `$match trip_id ∈ tripIds`, `$lookup` of the
route document, `$group` by `route_id`. -/
def allRoutesOf (db : ScheduleDB) (tripIds : List String) : List RouteGroup :=
  let filtered := db.trips.filter (fun t => decide (t.trip_id ∈ tripIds))
  (dedupFirst (filtered.map (·.route_id))).map (fun rid =>
    { rid := rid
      route_info := db.routes.find? (fun r => decide (r.route_id = rid))
      trip_ids :=
        dedupFirst ((filtered.filter (fun t => decide (t.route_id = rid))).map (·.trip_id)) })

/-- The `trip_id -> route_id` map (get_nearby_stop_times.ts lines
537-542), built by nested `Map.set` over the route groups. -/
def tripRouteMapOf (ars : List RouteGroup) : List (String × String) :=
  ars.foldl (fun m g => g.trip_ids.foldl (fun m' tid => mapSet m' tid g.rid) m) []

/-- `route?.route_info?.route_short_name || routeId`
(get_nearby_stop_times.ts lines 563-564): display name of a route id,
falling back to the id when the group or its route document or short
name is missing — or when the short name is the empty string
(JavaScript falsiness of `""`). -/
def displayName (ars : List RouteGroup) (rid : String) : String :=
  match ars.find? (fun g => decide (g.rid = rid)) with
  | some g =>
    match g.route_info with
    | some ri =>
      match ri.route_short_name with
      | some s => if s = "" then rid else s
      | none => rid
    | none => rid
  | none => rid

/-- The per-stop `routeCounts` map (get_nearby_stop_times.ts lines
553-559): walk the stop's trip ids, skip trips whose route id does not
resolve (`if (routeId)` also skips an empty-string route id), count
trips per route id in first-occurrence order. -/
def routeCountsStep (trm : List (String × String)) (m : List (String × Nat))
    (tid : String) : List (String × Nat) :=
  match trm.lookup tid with
  | some rid => if rid = "" then m else mapSet m rid (((m.lookup rid).getD 0) + 1)
  | none => m

def routeCountsOf (trm : List (String × String)) (stopTripIds : List String) :
    List (String × Nat) :=
  stopTripIds.foldl (routeCountsStep trm) []

/-- The mutable state of the nearest-wins walk: `routeDepartures`
(display name -> daily departures) and `processedRoutes` (claimed route
ids, in claim order; the source uses a JavaScript `Set`). -/
structure WalkSt where
  rd : List (String × Nat)
  pr : List String
deriving DecidableEq, Repr

/-- The body of the inner loop (get_nearby_stop_times.ts lines 562-576):
claim a route for the current stop unless a nearer stop already claimed
its route id. -/
def claimRoute (ars : List RouteGroup) (st : WalkSt) (rc : String × Nat) : WalkSt :=
  let routeShortName := displayName ars rc.1
  if rc.1 ∈ st.pr then st
  else ⟨mapSet st.rd routeShortName (dailyDeparturesOf rc.2), st.pr ++ [rc.1]⟩

/-- The body of the outer loop (get_nearby_stop_times.ts lines 545-577):
look up the stop's trip ids (`|| []`), build `routeCounts`, then fold
`claimRoute` over it.  (An empty trip list `continue`s, which is the
same as folding over the empty `routeCounts`.) -/
def processStop (trm : List (String × String)) (ars : List RouteGroup)
    (stMap : List (String × List String)) (st : WalkSt) (stop : NearbyStop) : WalkSt :=
  (routeCountsOf trm ((stMap.lookup stop.stop_id).getD [])).foldl (claimRoute ars) st

/-- The whole nearest-wins walk over the sorted stop list. -/
def walkStops (trm : List (String × String)) (ars : List RouteGroup)
    (stMap : List (String × List String)) (sorted : List NearbyStop) : WalkSt :=
  sorted.foldl (processStop trm ars stMap) ⟨[], []⟩

/-- CSV rendering (get_nearby_stop_times.ts lines 591-593): header plus
one `route,departures` row per route. -/
def csvOf (routes : List RouteDeparture) : String :=
  "route,departures\n" ++
    String.intercalate "\n" (routes.map (fun r => r.route ++ "," ++ toString r.departures))

/-- Final formatting (get_nearby_stop_times.ts lines 582-611): turn the
`routeDepartures` map into a list, sort it descending by departures
(stable), and package totals and CSV. -/
def respOf (rd : List (String × Nat)) : RoutesResponse :=
  let routes := List.insertionSort depGe (rd.map (fun p => ⟨p.1, p.2⟩))
  { routes := routes
    totalRoutes := routes.length
    totalDepartures := (routes.map (·.departures)).sum
    csv := csvOf routes }

/-- Stop ids of the (sorted) stop list (get_nearby_stop_times.ts line 480). -/
def stopIdsOf (ss : List NearbyStop) : List String := ss.map (·.stop_id)

/-- Query-1 result for a sorted stop list. -/
def astOf (db : ScheduleDB) (ss : List NearbyStop) : List (String × List String) :=
  allStopTrips db (stopIdsOf ss)

/-- Query-2 result for a sorted stop list. -/
def arsOf (db : ScheduleDB) (ss : List NearbyStop) : List RouteGroup :=
  allRoutesOf db (allTripIdsOf (astOf db ss))

/-- The `trip_id -> route_id` map for a sorted stop list. -/
def trmOf (db : ScheduleDB) (ss : List NearbyStop) : List (String × String) :=
  tripRouteMapOf (arsOf db ss)

/-- The `routeCounts` map of one stop, within the run over `ss`. -/
def countsAt (db : ScheduleDB) (ss : List NearbyStop) (stop : NearbyStop) :
    List (String × Nat) :=
  routeCountsOf (trmOf db ss) (((astOf db ss).lookup stop.stop_id).getD [])

/-- The walk state after processing the whole sorted stop list `ss`. -/
def walkOf (db : ScheduleDB) (ss : List NearbyStop) : WalkSt :=
  walkStops (trmOf db ss) (arsOf db ss) (astOf db ss) ss

/-- The aggregation applied to an already-sorted stop list. -/
def aggregateSorted (db : ScheduleDB) (ss : List NearbyStop) : RoutesResponse :=
  respOf (walkOf db ss).rd

/-- `getNearbyStopTimesFromStops` (get_nearby_stop_times.ts lines
455-618): the Route Departure Aggregator over pre-found stops — the
spec's `aggregateRoutes`.  Empty input short-circuits (lines 464-471);
otherwise the stop list is re-sorted ascending by distance and the
batched pipeline runs. -/
def getNearbyStopTimesFromStops (db : ScheduleDB) (stops : List NearbyStop) :
    RoutesResponse :=
  if stops.length = 0 then
    { routes := [], totalRoutes := 0, totalDepartures := 0, csv := "route,departures\n" }
  else aggregateSorted db (sortStops stops)

/-- A batched data-access round-trip issued by the aggregator, with its
payload. -/
inductive DataQuery where
  | stopTimesIn (stopIds : List String)
  | tripsIn (tripIds : List String)
deriving DecidableEq, Repr

/-- The sequence of data-access round-trips `getNearbyStopTimesFromStops`
performs, in program order: one awaited aggregate on `stop_times`
(line 483) and one awaited aggregate on `trips` (line 507); nothing for
the empty-input short-circuit. -/
def aggregatorQueries (db : ScheduleDB) (stops : List NearbyStop) : List DataQuery :=
  if stops.length = 0 then []
  else
    [DataQuery.stopTimesIn (stopIdsOf (sortStops stops)),
     DataQuery.tripsIn (allTripIdsOf (astOf db (sortStops stops)))]

/-! ## Arithmetic bridge lemmas -/

theorem ratFloor_eq_intFloor (a : ℚ) : a.floor = ⌊a⌋ :=
  (Rat.floor_def' a).trans Rat.floor_def.symm

theorem den_cast_pos (q : ℚ) : (0 : ℚ) < (q.den : ℚ) := by
  exact_mod_cast Nat.pos_of_ne_zero q.den_nz

theorem mul_den_eq_num (q : ℚ) : q * (q.den : ℚ) = (q.num : ℚ) := by
  have hd : (q.den : ℚ) ≠ 0 := ne_of_gt (den_cast_pos q)
  nth_rewrite 1 [← Rat.num_div_den q]
  exact div_mul_cancel₀ _ hd

/-- `jsRound` is rounding half toward `+∞`. -/
theorem jsRound_eq (q : ℚ) : jsRound q = ⌊q + 1/2⌋ := by
  have hd : (q.den : ℚ) ≠ 0 := ne_of_gt (den_cast_pos q)
  unfold jsRound
  rw [ratFloor_eq_intFloor]
  congr 1
  rw [Rat.mkRat_eq_div]
  push_cast
  rw [div_eq_iff (mul_ne_zero two_ne_zero hd)]
  linear_combination (-2) * (mul_den_eq_num q)

/-- `round2` is `Math.round (q * 100) / 100`. -/
theorem round2_eq (q : ℚ) : round2 q = (jsRound (q * 100) : ℚ) / 100 := by
  have hd : (q.den : ℚ) ≠ 0 := ne_of_gt (den_cast_pos q)
  have harg : mkRat (q.num * 100) q.den = q * 100 := by
    rw [Rat.mkRat_eq_div]
    push_cast
    rw [div_eq_iff hd]
    linear_combination (-100) * (mul_den_eq_num q)
  unfold round2
  rw [harg, Rat.mkRat_eq_div]
  norm_num

/-- Rounding to 2 decimals overshoots by at most `1/200`. -/
theorem round2_le (q : ℚ) : round2 q ≤ q + 1/200 := by
  rw [round2_eq, jsRound_eq]
  have h := Int.floor_le (q * 100 + 1/2)
  linarith

/-- `dailyDeparturesOf` is `Math.round (tripCount / 7)`. -/
theorem dailyDeparturesOf_eq (n : ℕ) :
    dailyDeparturesOf n = (⌊(n : ℚ) / 7 + 1/2⌋).toNat := by
  unfold dailyDeparturesOf
  rw [jsRound_eq, Rat.mkRat_eq_div]
  norm_num

/-! ## First-occurrence deduplication lemmas -/

theorem dedupFirstAux_congr {s₁ s₂ : List String} (h : ∀ y, y ∈ s₁ ↔ y ∈ s₂) :
    ∀ l, dedupFirstAux s₁ l = dedupFirstAux s₂ l
  | [] => rfl
  | x :: xs => by
    simp only [dedupFirstAux]
    by_cases hx : x ∈ s₁
    · rw [if_pos hx, if_pos ((h x).mp hx)]
      exact dedupFirstAux_congr h xs
    · rw [if_neg hx, if_neg (fun hh => hx ((h x).mpr hh))]
      have h' : ∀ y, y ∈ x :: s₁ ↔ y ∈ x :: s₂ := fun y => by
        simp only [List.mem_cons]
        exact or_congr Iff.rfl (h y)
      rw [dedupFirstAux_congr h' xs]

/-- Growing the `seen` accumulator by `x` filters `x` out of the result. -/
theorem dedupFirstAux_cons_seen (x : String) :
    ∀ (l seen : List String),
      dedupFirstAux (x :: seen) l = (dedupFirstAux seen l).filter (fun y => y != x)
  | [], _ => rfl
  | a :: as, seen => by
    simp only [dedupFirstAux]
    by_cases ha : a ∈ seen
    · rw [if_pos (List.mem_cons_of_mem x ha), if_pos ha]
      exact dedupFirstAux_cons_seen x as seen
    · by_cases hax : a = x
      · subst hax
        rw [if_pos (List.mem_cons_self a seen), if_neg ha]
        rw [List.filter_cons_of_neg (by simp)]
        rw [dedupFirstAux_cons_seen a as seen, List.filter_filter]
        apply List.filter_congr
        intro y _
        simp only [Bool.and_self]
      · rw [if_neg (by
            intro hh
            rcases List.mem_cons.mp hh with h1 | h1
            · exact hax h1
            · exact ha h1),
          if_neg ha]
        rw [List.filter_cons_of_pos (by simp [hax])]
        have hperm : ∀ y, y ∈ a :: x :: seen ↔ y ∈ x :: a :: seen := fun y => by
          simp only [List.mem_cons]
          tauto
        rw [dedupFirstAux_congr hperm as]
        rw [dedupFirstAux_cons_seen x as (a :: seen)]

/-- Recursive characterization of `dedupFirst`. -/
theorem dedupFirst_cons (x : String) (xs : List String) :
    dedupFirst (x :: xs) = x :: (dedupFirst xs).filter (fun y => y != x) := by
  unfold dedupFirst
  simp only [dedupFirstAux]
  rw [if_neg (List.not_mem_nil x), dedupFirstAux_cons_seen]

theorem mem_dedupFirst {x : String} : ∀ {l : List String}, x ∈ dedupFirst l ↔ x ∈ l
  | [] => Iff.rfl
  | a :: as => by
    rw [dedupFirst_cons, List.mem_cons, List.mem_cons]
    by_cases hx : x = a
    · simp [hx]
    · simp only [hx, false_or]
      rw [List.mem_filter]
      simp only [bne_iff_ne, ne_eq, hx, not_false_eq_true, and_true, decide_eq_true_eq]
      exact mem_dedupFirst

theorem nodup_dedupFirst : ∀ l : List String, (dedupFirst l).Nodup
  | [] => List.nodup_nil
  | a :: as => by
    rw [dedupFirst_cons]
    refine List.nodup_cons.mpr ⟨?_, ?_⟩
    · intro hmem
      have := (List.mem_filter.mp hmem).2
      simp at this
    · exact List.Nodup.filter _ (nodup_dedupFirst as)

/-- Deduplication commutes with value-level filtering. -/
theorem dedupFirst_filter (q : String → Bool) :
    ∀ l : List String, dedupFirst (l.filter q) = (dedupFirst l).filter q
  | [] => rfl
  | x :: xs => by
    by_cases hq : q x
    · rw [List.filter_cons_of_pos hq, dedupFirst_cons, dedupFirst_cons,
        dedupFirst_filter q xs, List.filter_filter, List.filter_cons_of_pos hq,
        List.filter_filter]
      congr 1
      apply List.filter_congr
      intro y _
      rw [Bool.and_comm]
    · rw [List.filter_cons_of_neg (by simp [hq]), dedupFirst_cons,
        dedupFirst_filter q xs, List.filter_cons_of_neg (by simp [hq]),
        List.filter_filter]
      apply List.filter_congr
      intro y _
      by_cases hqy : q y
      · have : (y != x) = true := by
          simp only [bne_iff_ne, ne_eq]
          intro hyx
          subst hyx
          exact hq hqy
        rw [hqy, this]
        rfl
      · simp [hqy]

/-- Deduplicating an append: the right part contributes its new keys at
the end. -/
theorem dedupFirst_append :
    ∀ l₁ l₂ : List String,
      dedupFirst (l₁ ++ l₂) =
        dedupFirst l₁ ++ (dedupFirst l₂).filter (fun y => decide (y ∉ l₁))
  | [], l₂ => by simp [show dedupFirst [] = [] from rfl]
  | x :: xs, l₂ => by
    rw [List.cons_append, dedupFirst_cons, dedupFirst_cons,
      dedupFirst_append xs l₂, List.filter_append, List.cons_append]
    congr 1
    congr 1
    rw [List.filter_filter]
    apply List.filter_congr
    intro y _
    simp only [List.mem_cons, bne_iff_ne, ne_eq]
    by_cases h1 : y = x
    · simp [h1]
    · by_cases h2 : y ∈ xs <;> simp [h1, h2]

/-! ## Association-list (JavaScript Map) lemmas -/

theorem lookup_cons_eq {α : Type} (a : String) (b : α) (l : List (String × α)) :
    List.lookup a ((a, b) :: l) = some b := by
  simp [List.lookup]

theorem lookup_cons_ne {α : Type} {k a : String} (b : α) (l : List (String × α))
    (h : k ≠ a) : List.lookup k ((a, b) :: l) = List.lookup k l := by
  simp only [List.lookup, beq_eq_false_iff_ne.mpr h]

theorem lookup_append_left {α : Type} {k : String} {b : α} :
    ∀ {l₁ : List (String × α)} (l₂ : List (String × α)),
      l₁.lookup k = some b → (l₁ ++ l₂).lookup k = some b
  | [], _, h => by simp [List.lookup] at h
  | (a, c) :: t, l₂, h => by
    by_cases hk : k = a
    · subst hk
      rw [lookup_cons_eq] at h
      rw [List.cons_append, lookup_cons_eq]
      exact h
    · rw [lookup_cons_ne _ _ hk] at h
      rw [List.cons_append, lookup_cons_ne _ _ hk]
      exact lookup_append_left l₂ h

theorem lookup_append_right {α : Type} {k : String} :
    ∀ {l₁ : List (String × α)} (l₂ : List (String × α)),
      l₁.lookup k = none → (l₁ ++ l₂).lookup k = l₂.lookup k
  | [], _, _ => rfl
  | (a, c) :: t, l₂, h => by
    by_cases hk : k = a
    · subst hk
      rw [lookup_cons_eq] at h
      exact absurd h (by simp)
    · rw [lookup_cons_ne _ _ hk] at h
      rw [List.cons_append, lookup_cons_ne _ _ hk]
      exact lookup_append_right l₂ h

theorem lookup_eq_none_of_not_mem_keys {α : Type} {k : String} :
    ∀ {m : List (String × α)}, k ∉ m.map Prod.fst → m.lookup k = none
  | [], _ => rfl
  | (a, c) :: t, h => by
    simp only [List.map_cons, List.mem_cons] at h
    push_neg at h
    rw [lookup_cons_ne _ _ h.1]
    exact lookup_eq_none_of_not_mem_keys h.2

theorem lookup_isSome_iff_mem_keys {α : Type} {k : String} :
    ∀ {m : List (String × α)}, (m.lookup k).isSome ↔ k ∈ m.map Prod.fst
  | [] => by simp [List.lookup]
  | (a, c) :: t => by
    by_cases hk : k = a
    · subst hk
      simp [lookup_cons_eq]
    · rw [lookup_cons_ne _ _ hk]
      simp only [List.map_cons, List.mem_cons, hk, false_or]
      exact lookup_isSome_iff_mem_keys

/-- Looking up a key of a function graph over a key list. -/
theorem lookup_graph {α : Type} (f : String → α) :
    ∀ {ks : List String} {k : String}, k ∈ ks →
      (ks.map (fun x => (x, f x))).lookup k = some (f k)
  | [], _, h => absurd h (List.not_mem_nil _)
  | a :: t, k, h => by
    by_cases hk : k = a
    · subst hk
      rw [List.map_cons, lookup_cons_eq]
    · rw [List.map_cons, lookup_cons_ne _ _ hk]
      exact lookup_graph f ((List.mem_cons.mp h).resolve_left hk)

/-- The in-place overwrite of `Map.set` preserves every other key. -/
theorem lookup_map_overwrite_ne {α : Type} {k k' : String} (v : α) (h : k' ≠ k) :
    ∀ m : List (String × α),
      (m.map (fun p => if p.1 = k then (k, v) else p)).lookup k' = m.lookup k'
  | [] => rfl
  | (a, b) :: t => by
    rw [List.map_cons]
    by_cases ha : a = k
    · rw [if_pos ha, lookup_cons_ne _ _ h, lookup_cons_ne _ _ (ha ▸ h)]
      exact lookup_map_overwrite_ne v h t
    · rw [if_neg ha]
      by_cases hk' : k' = a
      · subst hk'
        rw [lookup_cons_eq, lookup_cons_eq]
      · rw [lookup_cons_ne _ _ hk', lookup_cons_ne _ _ hk']
        exact lookup_map_overwrite_ne v h t

/-- The in-place overwrite of `Map.set` stores the new value. -/
theorem lookup_map_overwrite_self {α : Type} {k : String} (v : α) :
    ∀ {m : List (String × α)}, k ∈ m.map Prod.fst →
      (m.map (fun p => if p.1 = k then (k, v) else p)).lookup k = some v
  | [], h => absurd h (List.not_mem_nil _)
  | (a, b) :: t, h => by
    rw [List.map_cons]
    by_cases ha : a = k
    · subst ha
      rw [if_pos rfl, lookup_cons_eq]
    · rw [if_neg ha, lookup_cons_ne _ _ (fun hh => ha hh.symm)]
      refine lookup_map_overwrite_self v ?_
      simp only [List.map_cons, List.mem_cons] at h
      exact h.resolve_left (fun hh => ha hh.symm)

/-- `Map.set` with a fresh key appends. -/
theorem mapSet_of_not_mem {α : Type} {m : List (String × α)} {k : String} (v : α)
    (h : k ∉ m.map Prod.fst) : mapSet m k v = m ++ [(k, v)] := by
  unfold mapSet
  rw [if_neg (by
    rw [lookup_eq_none_of_not_mem_keys h]
    simp)]

theorem lookup_mapSet_self {α : Type} (m : List (String × α)) (k : String) (v : α) :
    (mapSet m k v).lookup k = some v := by
  unfold mapSet
  by_cases h : (m.lookup k).isSome = true
  · rw [if_pos h]
    exact lookup_map_overwrite_self v (lookup_isSome_iff_mem_keys.mp h)
  · rw [if_neg h]
    have hnone : m.lookup k = none := by
      cases hc : m.lookup k with
      | none => rfl
      | some b => rw [hc] at h; simp at h
    rw [lookup_append_right _ hnone, lookup_cons_eq]

theorem lookup_mapSet_ne {α : Type} (m : List (String × α)) {k k' : String} (v : α)
    (h : k' ≠ k) : (mapSet m k v).lookup k' = m.lookup k' := by
  unfold mapSet
  by_cases hany : (m.lookup k).isSome = true
  · rw [if_pos hany]
    exact lookup_map_overwrite_ne v h m
  · rw [if_neg hany]
    cases hcase : m.lookup k' with
    | some b => exact lookup_append_left _ hcase
    | none =>
      rw [lookup_append_right _ hcase, lookup_cons_ne _ _ h]
      rfl

/-! ## Closed form of the nearest-wins walk -/

theorem findSome?_append_left {α β : Type} {f : α → Option β} {b : β} :
    ∀ {l₁ : List α} (l₂ : List α),
      l₁.findSome? f = some b → (l₁ ++ l₂).findSome? f = some b
  | [], _, h => by simp [List.findSome?] at h
  | a :: t, l₂, h => by
    rw [List.cons_append, List.findSome?_cons] at *
    cases hfa : f a with
    | some c =>
      rw [hfa] at h
      exact h
    | none =>
      rw [hfa] at h
      exact findSome?_append_left l₂ h

theorem findSome?_append_right {α β : Type} {f : α → Option β} :
    ∀ {l₁ : List α} (l₂ : List α),
      l₁.findSome? f = none → (l₁ ++ l₂).findSome? f = l₂.findSome? f
  | [], _, _ => rfl
  | a :: t, l₂, h => by
    rw [List.cons_append, List.findSome?_cons] at *
    cases hfa : f a with
    | some c =>
      rw [hfa] at h
      have h' : some c = none := h
      exact absurd h' (by simp)
    | none =>
      rw [hfa] at h
      exact findSome?_append_right l₂ h

/-- The per-stop `routeCounts` maps, as a function of the stop, inside a
run whose two batched query results are `trm` and `stMap`. -/
def countsFn (trm : List (String × String)) (stMap : List (String × List String))
    (stop : NearbyStop) : List (String × Nat) :=
  routeCountsOf trm ((stMap.lookup stop.stop_id).getD [])

/-- The route ids claimed after walking `pre`, in claim order: first
occurrence over the concatenated per-stop `routeCounts` key lists. -/
def claimedOrder (counts : NearbyStop → List (String × Nat))
    (pre : List NearbyStop) : List String :=
  dedupFirst (pre.flatMap (fun s => (counts s).map Prod.fst))

/-- The trip count a route id gets from the first stop of `pre` that
serves it (0 when no stop serves it). -/
def firstCountOf (counts : NearbyStop → List (String × Nat))
    (pre : List NearbyStop) (rid : String) : Nat :=
  (pre.findSome? (fun s => (counts s).lookup rid)).getD 0

/-- Closed form of the walk state after processing the stop list `pre`. -/
def specSt (ars : List RouteGroup) (counts : NearbyStop → List (String × Nat))
    (pre : List NearbyStop) : WalkSt :=
  ⟨(claimedOrder counts pre).map (fun rid =>
      (displayName ars rid, dailyDeparturesOf (firstCountOf counts pre rid))),
    claimedOrder counts pre⟩

theorem mem_claimedOrder_iff {counts : NearbyStop → List (String × Nat)}
    {pre : List NearbyStop} {rid : String} :
    rid ∈ claimedOrder counts pre ↔
      (pre.findSome? (fun s => (counts s).lookup rid)).isSome := by
  unfold claimedOrder
  rw [mem_dedupFirst, List.mem_flatMap, List.findSome?_isSome_iff]
  constructor
  · rintro ⟨s, hs, hmem⟩
    exact ⟨s, hs, lookup_isSome_iff_mem_keys.mpr hmem⟩
  · rintro ⟨s, hs, hmem⟩
    exact ⟨s, hs, lookup_isSome_iff_mem_keys.mp hmem⟩

/-- One claimRoute fold over a `routeCounts` list, in closed form: the
newly claimed ids are the first occurrences of keys not yet processed,
each valued by its count in `rcs`. -/
theorem foldl_claimRoute_spec (ars : List RouteGroup) :
    ∀ (rcs : List (String × Nat)) (pr : List String) (g : String → Nat),
      (∀ r1 r2, (r1 ∈ pr ∨ r1 ∈ rcs.map Prod.fst) →
        (r2 ∈ pr ∨ r2 ∈ rcs.map Prod.fst) →
        displayName ars r1 = displayName ars r2 → r1 = r2) →
      rcs.foldl (claimRoute ars) ⟨pr.map (fun r => (displayName ars r, g r)), pr⟩ =
        ⟨(pr ++ (dedupFirst (rcs.map Prod.fst)).filter (fun r => decide (r ∉ pr))).map
            (fun r => (displayName ars r,
              if r ∈ pr then g r else dailyDeparturesOf ((rcs.lookup r).getD 0))),
          pr ++ (dedupFirst (rcs.map Prod.fst)).filter (fun r => decide (r ∉ pr))⟩
  | [], pr, g, _ => by
    simp only [List.foldl_nil, List.map_nil]
    have h1 : dedupFirst [] = [] := rfl
    rw [h1]
    simp only [List.filter_nil, List.append_nil]
    congr 1
    apply List.map_eq_map_iff.mpr
    intro r hr
    rw [if_pos hr]
  | (rid, c) :: rest, pr, g, hinj => by
    rw [List.foldl_cons]
    by_cases hmem : rid ∈ pr
    · have hclaim : claimRoute ars ⟨pr.map (fun r => (displayName ars r, g r)), pr⟩ (rid, c) =
          ⟨pr.map (fun r => (displayName ars r, g r)), pr⟩ := by
        unfold claimRoute
        rw [if_pos hmem]
      rw [hclaim]
      rw [foldl_claimRoute_spec ars rest pr g (by
        intro r1 r2 h1 h2
        refine hinj r1 r2 ?_ ?_
        · rcases h1 with h | h
          · exact Or.inl h
          · exact Or.inr (by simpa using Or.inr h)
        · rcases h2 with h | h
          · exact Or.inl h
          · exact Or.inr (by simpa using Or.inr h))]
      have hids : (dedupFirst (((rid, c) :: rest).map Prod.fst)).filter
            (fun r => decide (r ∉ pr)) =
          (dedupFirst (rest.map Prod.fst)).filter (fun r => decide (r ∉ pr)) := by
        rw [List.map_cons]
        show (dedupFirst (rid :: rest.map Prod.fst)).filter (fun r => decide (r ∉ pr)) = _
        rw [dedupFirst_cons, List.filter_cons_of_neg (by simp [hmem]), List.filter_filter]
        apply List.filter_congr
        intro y _
        by_cases hy : y ∈ pr
        · simp [hy]
        · have : y ≠ rid := fun hh => hy (hh ▸ hmem)
          simp [hy, this]
      rw [hids]
      congr 1
      apply List.map_eq_map_iff.mpr
      intro r hr
      by_cases hrpr : r ∈ pr
      · rw [if_pos hrpr, if_pos hrpr]
      · rw [if_neg hrpr, if_neg hrpr]
        have hrrid : r ≠ rid := fun hh => hrpr (hh ▸ hmem)
        rw [lookup_cons_ne _ _ hrrid]
    · have hfresh : displayName ars rid ∉ pr.map (displayName ars) := by
        intro hh
        rcases List.mem_map.mp hh with ⟨r', hr', heq⟩
        have : rid = r' := hinj rid r' (Or.inr (by simp)) (Or.inl hr') heq.symm
        exact hmem (by rw [this]; exact hr')
      have hclaim : claimRoute ars ⟨pr.map (fun r => (displayName ars r, g r)), pr⟩ (rid, c) =
          ⟨pr.map (fun r => (displayName ars r, g r)) ++
            [(displayName ars rid, dailyDeparturesOf c)], pr ++ [rid]⟩ := by
        unfold claimRoute
        rw [if_neg hmem]
        congr 1
        apply mapSet_of_not_mem
        rw [List.map_map]
        exact hfresh
      rw [hclaim]
      have hst : pr.map (fun r => (displayName ars r, g r)) ++
            [(displayName ars rid, dailyDeparturesOf c)] =
          (pr ++ [rid]).map (fun r => (displayName ars r,
            if r = rid then dailyDeparturesOf c else g r)) := by
        rw [List.map_append]
        congr 1
        · apply List.map_eq_map_iff.mpr
          intro r hr
          have : r ≠ rid := fun hh => hmem (hh ▸ hr)
          rw [if_neg this]
        · simp
      rw [hst]
      rw [foldl_claimRoute_spec ars rest (pr ++ [rid])
        (fun r => if r = rid then dailyDeparturesOf c else g r) (by
          intro r1 r2 h1 h2
          refine hinj r1 r2 ?_ ?_
          · rcases h1 with h | h
            · rcases List.mem_append.mp h with h' | h'
              · exact Or.inl h'
              · exact Or.inr (by simpa using Or.inl (List.mem_singleton.mp h'))
            · exact Or.inr (by simpa using Or.inr h)
          · rcases h2 with h | h
            · rcases List.mem_append.mp h with h' | h'
              · exact Or.inl h'
              · exact Or.inr (by simpa using Or.inl (List.mem_singleton.mp h'))
            · exact Or.inr (by simpa using Or.inr h))]
      have hlist : pr ++ (dedupFirst (((rid, c) :: rest).map Prod.fst)).filter
            (fun r => decide (r ∉ pr)) =
          (pr ++ [rid]) ++ (dedupFirst (rest.map Prod.fst)).filter
            (fun r => decide (r ∉ pr ++ [rid])) := by
        rw [List.map_cons]
        show pr ++ (dedupFirst (rid :: rest.map Prod.fst)).filter
            (fun r => decide (r ∉ pr)) = _
        rw [dedupFirst_cons, List.filter_cons_of_pos (by simp [hmem]),
          List.filter_filter, List.append_assoc, List.singleton_append]
        congr 2
        apply List.filter_congr
        intro y _
        by_cases hy1 : y = rid
        · simp [hy1]
        · by_cases hy2 : y ∈ pr <;> simp [hy1, hy2]
      rw [hlist]
      congr 1
      apply List.map_eq_map_iff.mpr
      intro r hr
      rcases List.mem_append.mp hr with hr' | hr'
      · rcases List.mem_append.mp hr' with hpr | hrid
        · have h1 : r ≠ rid := fun hh => hmem (hh ▸ hpr)
          rw [if_pos hr', if_pos hpr, if_neg h1]
        · have h1 : r = rid := List.mem_singleton.mp hrid
          subst h1
          rw [if_pos hr', if_neg hmem, if_pos rfl, lookup_cons_eq]
          rfl
      · have hconj := (List.mem_filter.mp hr').2
        simp only [decide_eq_true_eq] at hconj
        have h1 : r ∉ pr := fun hh => hconj (List.mem_append.mpr (Or.inl hh))
        have h2 : r ≠ rid := fun hh =>
          hconj (List.mem_append.mpr (Or.inr (by simp [hh])))
        rw [if_neg hconj, if_neg h1, lookup_cons_ne _ _ h2]

/-- Processing one more stop extends the closed-form walk state. -/
theorem processStop_spec (trm : List (String × String)) (ars : List RouteGroup)
    (stMap : List (String × List String)) (pre : List NearbyStop) (s : NearbyStop)
    (hinj : ∀ r1 r2,
      r1 ∈ (pre ++ [s]).flatMap (fun s' => (countsFn trm stMap s').map Prod.fst) →
      r2 ∈ (pre ++ [s]).flatMap (fun s' => (countsFn trm stMap s').map Prod.fst) →
      displayName ars r1 = displayName ars r2 → r1 = r2) :
    processStop trm ars stMap (specSt ars (countsFn trm stMap) pre) s =
      specSt ars (countsFn trm stMap) (pre ++ [s]) := by
  have hmemOf : ∀ r, r ∈ claimedOrder (countsFn trm stMap) pre ∨
      r ∈ (countsFn trm stMap s).map Prod.fst →
      r ∈ (pre ++ [s]).flatMap (fun s' => (countsFn trm stMap s').map Prod.fst) := by
    intro r hr
    rw [List.mem_flatMap]
    rcases hr with hr | hr
    · rw [claimedOrder, mem_dedupFirst, List.mem_flatMap] at hr
      rcases hr with ⟨s', hs', hmem⟩
      exact ⟨s', List.mem_append.mpr (Or.inl hs'), hmem⟩
    · exact ⟨s, List.mem_append.mpr (Or.inr (List.mem_singleton.mpr rfl)), hr⟩
  have hlist : claimedOrder (countsFn trm stMap) (pre ++ [s]) =
      claimedOrder (countsFn trm stMap) pre ++
        (dedupFirst ((countsFn trm stMap s).map Prod.fst)).filter
          (fun r => decide (r ∉ claimedOrder (countsFn trm stMap) pre)) := by
    show dedupFirst ((pre ++ [s]).flatMap (fun s' => (countsFn trm stMap s').map Prod.fst)) = _
    rw [List.flatMap_append, dedupFirst_append]
    have hsingle : [s].flatMap (fun s' => (countsFn trm stMap s').map Prod.fst) =
        (countsFn trm stMap s).map Prod.fst := by simp
    rw [hsingle]
    congr 1
    apply List.filter_congr
    intro y _
    have : y ∈ claimedOrder (countsFn trm stMap) pre ↔
        y ∈ pre.flatMap (fun s' => (countsFn trm stMap s').map Prod.fst) := mem_dedupFirst
    by_cases hy : y ∈ pre.flatMap (fun s' => (countsFn trm stMap s').map Prod.fst)
    · simp [hy, this.mpr hy]
    · have h2 : y ∉ claimedOrder (countsFn trm stMap) pre := fun hh => hy (this.mp hh)
      simp [hy, h2]
  unfold processStop
  have hshape : specSt ars (countsFn trm stMap) pre =
      ⟨(claimedOrder (countsFn trm stMap) pre).map (fun r => (displayName ars r,
          (fun rid => dailyDeparturesOf (firstCountOf (countsFn trm stMap) pre rid)) r)),
        claimedOrder (countsFn trm stMap) pre⟩ := rfl
  rw [hshape]
  rw [show routeCountsOf trm ((stMap.lookup s.stop_id).getD []) =
    countsFn trm stMap s from rfl]
  rw [foldl_claimRoute_spec ars (countsFn trm stMap s)
    (claimedOrder (countsFn trm stMap) pre)
    (fun rid => dailyDeparturesOf (firstCountOf (countsFn trm stMap) pre rid))
    (fun r1 r2 h1 h2 => hinj r1 r2 (hmemOf r1 h1) (hmemOf r2 h2))]
  unfold specSt
  rw [hlist]
  congr 1
  apply List.map_eq_map_iff.mpr
  intro r hr
  rcases List.mem_append.mp hr with hpr | hnew
  · rw [if_pos hpr]
    have hsome : ((pre.findSome? (fun s' => (countsFn trm stMap s').lookup r))).isSome :=
      mem_claimedOrder_iff.mp hpr
    rcases Option.isSome_iff_exists.mp hsome with ⟨b, hb⟩
    have : firstCountOf (countsFn trm stMap) (pre ++ [s]) r =
        firstCountOf (countsFn trm stMap) pre r := by
      unfold firstCountOf
      rw [findSome?_append_left _ hb, hb]
    rw [this]
  · have hconj := (List.mem_filter.mp hnew).2
    simp only [decide_eq_true_eq] at hconj
    rw [if_neg hconj]
    have hnone : pre.findSome? (fun s' => (countsFn trm stMap s').lookup r) = none := by
      cases hc : pre.findSome? (fun s' => (countsFn trm stMap s').lookup r) with
      | none => rfl
      | some b =>
        exact absurd (mem_claimedOrder_iff.mpr (by rw [hc]; rfl)) hconj
    have : firstCountOf (countsFn trm stMap) (pre ++ [s]) r =
        ((countsFn trm stMap s).lookup r).getD 0 := by
      unfold firstCountOf
      rw [findSome?_append_right _ hnone]
      cases hc : (countsFn trm stMap s).lookup r with
      | none => simp [List.findSome?_cons, hc]
      | some b => simp [List.findSome?_cons, hc]
    rw [this]

/-- Closed form of the whole nearest-wins walk: provided that every pair
of distinct claimable route ids has distinct display names, the walk
state after `ss` is `specSt` of `ss`. -/
theorem walkStops_spec (trm : List (String × String)) (ars : List RouteGroup)
    (stMap : List (String × List String)) :
    ∀ (ss pre : List NearbyStop),
      (∀ r1 r2,
        r1 ∈ (pre ++ ss).flatMap (fun s => (countsFn trm stMap s).map Prod.fst) →
        r2 ∈ (pre ++ ss).flatMap (fun s => (countsFn trm stMap s).map Prod.fst) →
        displayName ars r1 = displayName ars r2 → r1 = r2) →
      ss.foldl (processStop trm ars stMap) (specSt ars (countsFn trm stMap) pre) =
        specSt ars (countsFn trm stMap) (pre ++ ss)
  | [], pre, _ => by rw [List.foldl_nil, List.append_nil]
  | s :: rest, pre, hinj => by
    have hsub : ∀ r, r ∈ ((pre ++ [s]) ++ rest).flatMap
        (fun s' => (countsFn trm stMap s').map Prod.fst) →
        r ∈ (pre ++ s :: rest).flatMap (fun s' => (countsFn trm stMap s').map Prod.fst) := by
      intro r hr
      rw [List.append_assoc, List.singleton_append] at hr
      exact hr
    have hsub1 : ∀ r, r ∈ (pre ++ [s]).flatMap
        (fun s' => (countsFn trm stMap s').map Prod.fst) →
        r ∈ (pre ++ s :: rest).flatMap (fun s' => (countsFn trm stMap s').map Prod.fst) := by
      intro r hr
      rw [List.mem_flatMap] at hr ⊢
      rcases hr with ⟨s', hs', hmem⟩
      refine ⟨s', ?_, hmem⟩
      rcases List.mem_append.mp hs' with h | h
      · exact List.mem_append.mpr (Or.inl h)
      · exact List.mem_append.mpr (Or.inr (by
          rw [List.mem_singleton] at h
          exact h ▸ List.mem_cons_self s rest))
    rw [List.foldl_cons,
      processStop_spec trm ars stMap pre s
        (fun r1 r2 h1 h2 => hinj r1 r2 (hsub1 r1 h1) (hsub1 r2 h2)),
      walkStops_spec trm ars stMap rest (pre ++ [s])
        (fun r1 r2 h1 h2 => hinj r1 r2 (hsub r1 h1) (hsub r2 h2)),
      List.append_assoc, List.singleton_append]

/-- The walk over the whole sorted stop list, in closed form. -/
theorem walkOf_spec (db : ScheduleDB) (ss : List NearbyStop)
    (hinj : ∀ r1 r2,
      r1 ∈ ss.flatMap (fun s => (countsAt db ss s).map Prod.fst) →
      r2 ∈ ss.flatMap (fun s => (countsAt db ss s).map Prod.fst) →
      displayName (arsOf db ss) r1 = displayName (arsOf db ss) r2 → r1 = r2) :
    walkOf db ss = specSt (arsOf db ss) (countsFn (trmOf db ss) (astOf db ss)) ss := by
  unfold walkOf walkStops
  have h0 : (⟨[], []⟩ : WalkSt) =
      specSt (arsOf db ss) (countsFn (trmOf db ss) (astOf db ss)) [] := rfl
  rw [h0]
  have hc : ∀ s, countsAt db ss s = countsFn (trmOf db ss) (astOf db ss) s := fun _ => rfl
  rw [walkStops_spec (trmOf db ss) (arsOf db ss) (astOf db ss) ss []
    (by
      intro r1 r2 h1 h2
      rw [List.nil_append] at h1 h2
      exact hinj r1 r2 h1 h2)]
  rw [List.nil_append]

/-! ## Sorting lemmas -/

/-- The strict version of `distLe`, used for uniqueness of the sorted
order when distances are pairwise distinct. -/
def distLt (a b : NearbyStop) : Prop := a.distance < b.distance

instance : IsAntisymm NearbyStop distLt :=
  ⟨fun _ _ h1 h2 => absurd h2 (not_lt.mpr (le_of_lt h1))⟩

theorem sortStops_sorted (stops : List NearbyStop) :
    List.Sorted distLe (sortStops stops) :=
  List.sorted_insertionSort distLe stops

theorem sortStops_perm (stops : List NearbyStop) : List.Perm (sortStops stops) stops :=
  List.perm_insertionSort distLe stops

/-- Two permuted stop lists with pairwise-distinct distances sort to the
same list. -/
theorem sortStops_eq_of_perm {stops stops' : List NearbyStop}
    (hp : List.Perm stops stops')
    (hd : stops.Pairwise (fun a b => a.distance ≠ b.distance)) :
    sortStops stops = sortStops stops' := by
  have hsym : ∀ {a b : NearbyStop}, a.distance ≠ b.distance → b.distance ≠ a.distance :=
    fun h => h.symm
  have h1 : List.Perm (sortStops stops) stops := sortStops_perm stops
  have h2 := sortStops_perm stops'
  have hperm : List.Perm (sortStops stops) (sortStops stops') :=
    h1.trans (hp.trans h2.symm)
  have hd1 : (sortStops stops).Pairwise (fun a b => a.distance ≠ b.distance) :=
    (List.Perm.pairwise_iff hsym h1).mpr hd
  have hd2 : (sortStops stops').Pairwise (fun a b => a.distance ≠ b.distance) :=
    (List.Perm.pairwise_iff hsym h2).mpr ((List.Perm.pairwise_iff hsym hp).mp hd)
  have hstrict1 : (sortStops stops).Pairwise distLt :=
    ((sortStops_sorted stops).and hd1).imp (fun h => lt_of_le_of_ne h.1 h.2)
  have hstrict2 : (sortStops stops').Pairwise distLt :=
    ((sortStops_sorted stops').and hd2).imp (fun h => lt_of_le_of_ne h.1 h.2)
  exact List.eq_of_perm_of_sorted hperm hstrict1 hstrict2

/-- Stability of the final descending sort, filter form: the entries of
any fixed departure count keep their relative order. -/
theorem filter_orderedInsert_dep (n : Nat) (x : RouteDeparture) :
    ∀ l : List RouteDeparture,
      (List.orderedInsert depGe x l).filter (fun e => decide (e.departures = n)) =
        if x.departures = n then
          x :: l.filter (fun e => decide (e.departures = n))
        else l.filter (fun e => decide (e.departures = n))
  | [] => by
    by_cases hx : x.departures = n <;> simp [List.orderedInsert, hx]
  | y :: ys => by
    rw [List.orderedInsert]
    by_cases hxy : depGe x y
    · rw [if_pos hxy]
      by_cases hx : x.departures = n
      · rw [if_pos hx, List.filter_cons_of_pos (by simp [hx])]
      · rw [if_neg hx, List.filter_cons_of_neg (by simp [hx])]
    · rw [if_neg hxy]
      have hy : ¬ y.departures = n ∨ ¬ x.departures = n := by
        by_cases hx : x.departures = n
        · left
          intro hyn
          exact hxy (by unfold depGe; rw [hyn, hx])
        · right; exact hx
      by_cases hyn : y.departures = n
      · rcases hy with h | h
        · exact absurd hyn h
        · rw [List.filter_cons_of_pos (by simp [hyn]),
            filter_orderedInsert_dep n x ys, if_neg h,
            List.filter_cons_of_pos (by simp [hyn]), if_neg h]
      · rw [List.filter_cons_of_neg (by simp [hyn]),
          filter_orderedInsert_dep n x ys,
          List.filter_cons_of_neg (by simp [hyn])]

theorem filter_insertionSort_dep (n : Nat) :
    ∀ l : List RouteDeparture,
      (List.insertionSort depGe l).filter (fun e => decide (e.departures = n)) =
        l.filter (fun e => decide (e.departures = n))
  | [] => rfl
  | x :: xs => by
    rw [List.insertionSort, filter_orderedInsert_dep n x (List.insertionSort depGe xs),
      filter_insertionSort_dep n xs]
    by_cases hx : x.departures = n
    · rw [if_pos hx, List.filter_cons_of_pos (by simp [hx])]
    · rw [if_neg hx, List.filter_cons_of_neg (by simp [hx])]

/-- `find?` by key in a list with pairwise-distinct keys returns the
member with that key. -/
theorem find?_key_of_nodup (e : RouteDeparture) :
    ∀ l : List RouteDeparture, (l.map (fun x => x.route)).Nodup → e ∈ l →
      l.find? (fun x => decide (x.route = e.route)) = some e
  | [], _, h => absurd h (List.not_mem_nil _)
  | x :: t, hnd, h => by
    rw [List.map_cons] at hnd
    have hnd' := List.nodup_cons.mp hnd
    rcases List.mem_cons.mp h with he | he
    · subst he
      rw [List.find?_cons_of_pos _ (by simp)]
    · have hne : x.route ≠ e.route := fun hh =>
        hnd'.1 (hh ▸ List.mem_map.mpr ⟨e, he, rfl⟩)
      rw [List.find?_cons_of_neg _ (by simp [hne])]
      exact find?_key_of_nodup e t hnd'.2 he

/-! ## Claim theorems -/

/-- Claim C7: the Route Departure Aggregator applied to an empty stop
list returns exactly `{ routes := [], totalRoutes := 0,
totalDepartures := 0 }` with the bare CSV header, and (being a total
function) raises no error. -/
theorem c7_zero_stop_input (db : ScheduleDB) :
    getNearbyStopTimesFromStops db [] =
      { routes := [], totalRoutes := 0, totalDepartures := 0,
        csv := "route,departures\n" } := rfl

theorem mem_zip_self {α : Type} : ∀ {l : List α} {p : α × α}, p ∈ l.zip l → p.1 = p.2
  | [], _, h => absurd h (List.not_mem_nil _)
  | x :: t, p, h => by
    rw [List.zip_cons_cons] at h
    rcases List.mem_cons.mp h with h | h
    · rw [h]
    · exact mem_zip_self h

theorem getNearbyStops_eq_manual (d : ℚ → ℚ → ℚ) (db : List StopDoc)
    (latMin latMax lngMin lngMax maxDistance : ℚ) (limit : Nat) :
    getNearbyStops d db latMin latMax lngMin lngMax maxDistance limit =
      getNearbyStopsManual d db latMin latMax lngMin lngMax maxDistance limit := by
  unfold getNearbyStops
  by_cases h : db.length = 0
  · rw [if_pos h]
    have hdb : db = [] := List.length_eq_zero.mp h
    subst hdb
    simp [getNearbyStopsManual, boxStops, distFilter, List.insertionSort]
  · rw [if_neg h]

/-- Claim C4: the two Locator strategies return the same set of stop ids
(indeed the same list), with per-stop distances differing by at most
0.01 m (indeed by 0, since `getNearbyStops` delegates to
`getNearbyStopsManual` after an empty-collection check that changes
nothing). -/
theorem c4_strategy_equivalence (d : ℚ → ℚ → ℚ) (db : List StopDoc)
    (latMin latMax lngMin lngMax maxDistance : ℚ) (limit : Nat) :
    (getNearbyStops d db latMin latMax lngMin lngMax maxDistance limit).map
        (fun s => s.stop_id) =
      (getNearbyStopsManual d db latMin latMax lngMin lngMax maxDistance limit).map
        (fun s => s.stop_id) ∧
    ∀ p ∈ (getNearbyStops d db latMin latMax lngMin lngMax maxDistance limit).zip
        (getNearbyStopsManual d db latMin latMax lngMin lngMax maxDistance limit),
      |p.1.distance - p.2.distance| ≤ 1/100 := by
  rw [getNearbyStops_eq_manual]
  refine ⟨rfl, ?_⟩
  intro p hp
  rw [mem_zip_self hp, sub_self, abs_zero]
  norm_num

/-- Claim C3: for every non-empty input stop list the aggregator issues
exactly two batched data-access round-trips — one `stop_times` query
carrying every stop id at once, then one `trips` query carrying the
union of all found trip ids — regardless of the number of stops. -/
theorem c3_batched_two_queries (db : ScheduleDB) (stops : List NearbyStop)
    (hne : stops ≠ []) :
    (aggregatorQueries db stops).length = 2 ∧
    aggregatorQueries db stops =
      [DataQuery.stopTimesIn (stopIdsOf (sortStops stops)),
       DataQuery.tripsIn (allTripIdsOf (astOf db (sortStops stops)))] ∧
    ∀ s ∈ stops, s.stop_id ∈ stopIdsOf (sortStops stops) := by
  have hlen : ¬ stops.length = 0 := fun h => hne (List.length_eq_zero.mp h)
  unfold aggregatorQueries
  rw [if_neg hlen]
  refine ⟨rfl, rfl, ?_⟩
  intro s hs
  unfold stopIdsOf
  exact List.mem_map.mpr ⟨s, (sortStops_perm stops).mem_iff.mpr hs, rfl⟩

/-- Witness for C3 at a concrete one-stop input. -/
theorem c3_batched_two_queries_witness :
    (aggregatorQueries ⟨[], [], []⟩ [⟨"A", 1, "Stop A", 0, 0, 100⟩]).length = 2 ∧
    aggregatorQueries ⟨[], [], []⟩ [⟨"A", 1, "Stop A", 0, 0, 100⟩] =
      [DataQuery.stopTimesIn (stopIdsOf (sortStops [⟨"A", 1, "Stop A", 0, 0, 100⟩])),
       DataQuery.tripsIn (allTripIdsOf (astOf ⟨[], [], []⟩
         (sortStops [⟨"A", 1, "Stop A", 0, 0, 100⟩])))] ∧
    ∀ s ∈ [(⟨"A", 1, "Stop A", 0, 0, 100⟩ : NearbyStop)],
      s.stop_id ∈ stopIdsOf (sortStops [⟨"A", 1, "Stop A", 0, 0, 100⟩]) :=
  c3_batched_two_queries ⟨[], [], []⟩ [⟨"A", 1, "Stop A", 0, 0, 100⟩] (by decide)

/-- Claim C9: the pre-supplied-stops aggregator re-sorts its input by
ascending distance, so when all distances are pairwise distinct every
permutation of the input produces an identical output. -/
theorem c9_permutation_invariance (db : ScheduleDB) (stops stops' : List NearbyStop)
    (hp : List.Perm stops stops')
    (hd : stops.Pairwise (fun a b => a.distance ≠ b.distance)) :
    getNearbyStopTimesFromStops db stops = getNearbyStopTimesFromStops db stops' := by
  unfold getNearbyStopTimesFromStops
  have hlen : stops.length = stops'.length := hp.length_eq
  by_cases h : stops.length = 0
  · rw [if_pos h, if_pos (by rw [← hlen]; exact h)]
  · rw [if_neg h, if_neg (by rw [← hlen]; exact h)]
    rw [sortStops_eq_of_perm hp hd]

/-- Witness for C9 at a concrete two-stop permuted pair. -/
theorem c9_permutation_invariance_witness :
    getNearbyStopTimesFromStops
        ⟨[⟨"t1", "A"⟩], [⟨"t1", "r1"⟩], [⟨"r1", some "R"⟩]⟩
        [⟨"A", 1, "Stop A", 0, 0, 100⟩, ⟨"B", 2, "Stop B", 0, 0, 300⟩] =
      getNearbyStopTimesFromStops
        ⟨[⟨"t1", "A"⟩], [⟨"t1", "r1"⟩], [⟨"r1", some "R"⟩]⟩
        [⟨"B", 2, "Stop B", 0, 0, 300⟩, ⟨"A", 1, "Stop A", 0, 0, 100⟩] :=
  c9_permutation_invariance _ _ _ (by decide) (by decide)

/-- Concrete stop collection for the C2 counterexample. -/
def locCexDb : List StopDoc := [⟨"s1", 0, "S1", 0, 0⟩]

/-- Concrete distance function for the C2 counterexample: the stop's
exact Haversine distance is 999.996 m. -/
def locCexDist : ℚ → ℚ → ℚ := fun _ _ => mkRat 249999 250

/-- Claim C2 counterexample: with `maxDistance = 999.996` and a stop at
exact distance 999.996 (inclusively within range), the reported
`distance` field is rounded **up** to 1000.00, so the output violates
`distance ≤ maxDistance` as stated. -/
theorem c2_counterexample :
    ¬ (∀ s ∈ getNearbyStopsManual locCexDist locCexDb (-1) 1 (-1) 1
          (mkRat 249999 250) 50,
        s.distance ≤ mkRat 249999 250) := by decide

/-- Claim C2 (amended): for every valid input, the Locator's output is
sorted non-decreasing by distance and has length at most `limit`; every
output stop comes from a collection stop whose **unrounded** distance is
within `maxDistance` (inclusive bound, so a stop at exactly
`maxDistance` passes the filter), and its reported `distance` is that
distance rounded to 2 decimals — hence at most `maxDistance + 0.005`,
but (as the counterexample shows) not always at most `maxDistance`. -/
theorem c2_amended_locator_postcondition (d : ℚ → ℚ → ℚ) (db : List StopDoc)
    (latMin latMax lngMin lngMax maxDistance : ℚ) (limit : Nat) :
    List.Sorted distLe
      (getNearbyStopsManual d db latMin latMax lngMin lngMax maxDistance limit) ∧
    (getNearbyStopsManual d db latMin latMax lngMin lngMax maxDistance limit).length ≤
      limit ∧
    (∀ ns ∈ getNearbyStopsManual d db latMin latMax lngMin lngMax maxDistance limit,
      ∃ s ∈ db, ns.stop_id = s.stop_id ∧ d s.stop_lat s.stop_lon ≤ maxDistance ∧
        ns.distance = round2 (d s.stop_lat s.stop_lon) ∧
        ns.distance ≤ maxDistance + 1/200) ∧
    (∀ s ∈ boxStops db latMin latMax lngMin lngMax (max (limit * 10) 1000),
      d s.stop_lat s.stop_lon ≤ maxDistance →
        mkNearbyStop s (d s.stop_lat s.stop_lon) ∈
          distFilter d maxDistance
            (boxStops db latMin latMax lngMin lngMax (max (limit * 10) 1000))) := by
  refine ⟨?_, ?_, ?_, ?_⟩
  · show List.Sorted distLe ((List.insertionSort distLe _).take limit)
    exact (List.sorted_insertionSort distLe _).sublist (List.take_sublist _ _)
  · exact List.length_take_le _ _
  · intro ns hns
    have hns1 : ns ∈ List.insertionSort distLe
        (distFilter d maxDistance
          (boxStops db latMin latMax lngMin lngMax (max (limit * 10) 1000))) :=
      List.mem_of_mem_take hns
    have hns2 : ns ∈ distFilter d maxDistance
        (boxStops db latMin latMax lngMin lngMax (max (limit * 10) 1000)) :=
      (List.perm_insertionSort distLe _).mem_iff.mp hns1
    rw [distFilter, List.mem_filterMap] at hns2
    rcases hns2 with ⟨s, hs, hfs⟩
    have hsdb : s ∈ db := by
      have h1 : s ∈ db.filter _ := List.mem_of_mem_take hs
      exact (List.mem_filter.mp h1).1
    by_cases hd : d s.stop_lat s.stop_lon ≤ maxDistance
    · rw [if_pos hd] at hfs
      have hns3 : ns = mkNearbyStop s (d s.stop_lat s.stop_lon) := by
        injection hfs with h
        exact h.symm
      refine ⟨s, hsdb, ?_, hd, ?_, ?_⟩
      · rw [hns3]; rfl
      · rw [hns3]; rfl
      · rw [hns3]
        show round2 (d s.stop_lat s.stop_lon) ≤ maxDistance + 1/200
        calc round2 (d s.stop_lat s.stop_lon) ≤ d s.stop_lat s.stop_lon + 1/200 :=
              round2_le _
          _ ≤ maxDistance + 1/200 := by linarith
    · rw [if_neg hd] at hfs
      exact absurd hfs (by simp)
  · intro s hs hd
    rw [distFilter, List.mem_filterMap]
    exact ⟨s, hs, by rw [if_pos hd]⟩

/-- Concrete schedule data for the C1 counterexample: route ids `r1` and
`r2` share the display short name `R`; stop `A` serves 14 weekly trips
of `r1`, stop `B` serves 21 weekly trips of `r2`. -/
def c1CexDb : ScheduleDB :=
  { stop_times := [⟨"a1", "A"⟩, ⟨"a2", "A"⟩, ⟨"a3", "A"⟩, ⟨"a4", "A"⟩, ⟨"a5", "A"⟩, ⟨"a6", "A"⟩, ⟨"a7", "A"⟩, ⟨"a8", "A"⟩, ⟨"a9", "A"⟩, ⟨"a10", "A"⟩, ⟨"a11", "A"⟩, ⟨"a12", "A"⟩, ⟨"a13", "A"⟩, ⟨"a14", "A"⟩, ⟨"b1", "B"⟩, ⟨"b2", "B"⟩, ⟨"b3", "B"⟩, ⟨"b4", "B"⟩, ⟨"b5", "B"⟩, ⟨"b6", "B"⟩, ⟨"b7", "B"⟩, ⟨"b8", "B"⟩, ⟨"b9", "B"⟩, ⟨"b10", "B"⟩, ⟨"b11", "B"⟩, ⟨"b12", "B"⟩, ⟨"b13", "B"⟩, ⟨"b14", "B"⟩, ⟨"b15", "B"⟩, ⟨"b16", "B"⟩, ⟨"b17", "B"⟩, ⟨"b18", "B"⟩, ⟨"b19", "B"⟩, ⟨"b20", "B"⟩, ⟨"b21", "B"⟩]
    trips := [⟨"a1", "r1"⟩, ⟨"a2", "r1"⟩, ⟨"a3", "r1"⟩, ⟨"a4", "r1"⟩, ⟨"a5", "r1"⟩, ⟨"a6", "r1"⟩, ⟨"a7", "r1"⟩, ⟨"a8", "r1"⟩, ⟨"a9", "r1"⟩, ⟨"a10", "r1"⟩, ⟨"a11", "r1"⟩, ⟨"a12", "r1"⟩, ⟨"a13", "r1"⟩, ⟨"a14", "r1"⟩, ⟨"b1", "r2"⟩, ⟨"b2", "r2"⟩, ⟨"b3", "r2"⟩, ⟨"b4", "r2"⟩, ⟨"b5", "r2"⟩, ⟨"b6", "r2"⟩, ⟨"b7", "r2"⟩, ⟨"b8", "r2"⟩, ⟨"b9", "r2"⟩, ⟨"b10", "r2"⟩, ⟨"b11", "r2"⟩, ⟨"b12", "r2"⟩, ⟨"b13", "r2"⟩, ⟨"b14", "r2"⟩, ⟨"b15", "r2"⟩, ⟨"b16", "r2"⟩, ⟨"b17", "r2"⟩, ⟨"b18", "r2"⟩, ⟨"b19", "r2"⟩, ⟨"b20", "r2"⟩, ⟨"b21", "r2"⟩]
    routes := [⟨"r1", some "R"⟩, ⟨"r2", some "R"⟩] }

/-- The C1 counterexample input stop list: `A` at 100 m, `B` at 300 m,
already in ascending distance order. -/
def c1CexStops : List NearbyStop :=
  [⟨"A", 1, "Stop A", 0, 0, 100⟩, ⟨"B", 2, "Stop B", 0, 0, 300⟩]
set_option maxRecDepth 4000 in
/-- Claim C1 counterexample: the nearest input stop serving route `r1`
is `A` with 14 weekly trips, so the claim requires the output value for
that route to be `round (14/7) = 2`; but the single output entry under
`r1`'s display name `R` is 3 (the value of the *different* route `r2`,
claimed from the farther stop `B`, which overwrote it) and no entry with
value 2 survives — so the departures value is neither the
nearest-stop value nor a sum. -/
theorem c1_counterexample :
    dailyDeparturesOf 14 = 2 ∧
    (getNearbyStopTimesFromStops c1CexDb c1CexStops).routes = [⟨"R", 3⟩] ∧
    ¬ ((⟨"R", 2⟩ : RouteDeparture) ∈
        (getNearbyStopTimesFromStops c1CexDb c1CexStops).routes) := by decide

/-- Shared helper: under display-name injectivity on the claimable route
ids, the output entry found under a route's display name is exactly the
round-of-nearest-stop-count value. -/
theorem aggregator_find?_nearest (db : ScheduleDB) (stops : List NearbyStop)
    (rid : String) (c : Nat)
    (hinj : ∀ r1 ∈ (sortStops stops).flatMap
        (fun s => (countsAt db (sortStops stops) s).map Prod.fst),
      ∀ r2 ∈ (sortStops stops).flatMap
        (fun s => (countsAt db (sortStops stops) s).map Prod.fst),
      displayName (arsOf db (sortStops stops)) r1 =
        displayName (arsOf db (sortStops stops)) r2 → r1 = r2)
    (hfirst : (sortStops stops).findSome?
        (fun s => (countsAt db (sortStops stops) s).lookup rid) = some c)
    (hne : stops ≠ []) :
    (getNearbyStopTimesFromStops db stops).routes.find?
        (fun e => decide (e.route = displayName (arsOf db (sortStops stops)) rid)) =
      some ⟨displayName (arsOf db (sortStops stops)) rid, dailyDeparturesOf c⟩ := by
  set ss := sortStops stops with hss
  set A := arsOf db ss with hA
  set C := countsFn (trmOf db ss) (astOf db ss) with hC
  have hmain : getNearbyStopTimesFromStops db stops = aggregateSorted db ss := by
    unfold getNearbyStopTimesFromStops
    rw [if_neg (fun h => hne (List.length_eq_zero.mp h))]
  have hwalk := walkOf_spec db ss (fun r1 r2 h1 h2 => hinj r1 h1 r2 h2)
  have hfirst' : ss.findSome? (fun s => (C s).lookup rid) = some c := hfirst
  have hmm : rid ∈ claimedOrder C ss :=
    mem_claimedOrder_iff.mpr (by rw [hfirst']; rfl)
  have hfc : firstCountOf C ss rid = c := by
    unfold firstCountOf
    rw [hfirst']
    rfl
  have hrd : (specSt A C ss).rd = (claimedOrder C ss).map
      (fun r => (displayName A r, dailyDeparturesOf (firstCountOf C ss r))) := rfl
  have hmemRd : (displayName A rid, dailyDeparturesOf c) ∈ (specSt A C ss).rd := by
    rw [hrd]
    exact List.mem_map.mpr ⟨rid, hmm, by rw [hfc]⟩
  have hroutes : (aggregateSorted db ss).routes =
      List.insertionSort depGe
        ((specSt A C ss).rd.map (fun p => (⟨p.1, p.2⟩ : RouteDeparture))) := by
    unfold aggregateSorted respOf
    rw [hwalk]
  rw [hmain, hroutes]
  have hperm : List.Perm
      (List.insertionSort depGe
        ((specSt A C ss).rd.map (fun p => (⟨p.1, p.2⟩ : RouteDeparture))))
      ((specSt A C ss).rd.map (fun p => (⟨p.1, p.2⟩ : RouteDeparture))) :=
    List.perm_insertionSort depGe _
  have hmemRoutes : (⟨displayName A rid, dailyDeparturesOf c⟩ : RouteDeparture) ∈
      List.insertionSort depGe
        ((specSt A C ss).rd.map (fun p => (⟨p.1, p.2⟩ : RouteDeparture))) :=
    hperm.mem_iff.mpr (List.mem_map.mpr ⟨_, hmemRd, rfl⟩)
  have hkeys : ((specSt A C ss).rd.map
        (fun p => (⟨p.1, p.2⟩ : RouteDeparture))).map (fun x => x.route) =
      (claimedOrder C ss).map (displayName A) := by
    rw [hrd, List.map_map, List.map_map]
    rfl
  have hnd : ((claimedOrder C ss).map (displayName A)).Nodup := by
    apply List.Nodup.map_on
    · intro r1 h1 r2 h2 heq
      exact hinj r1 (mem_dedupFirst.mp h1) r2 (mem_dedupFirst.mp h2) heq
    · exact nodup_dedupFirst _
  have hnodupKeys : ((List.insertionSort depGe
      ((specSt A C ss).rd.map (fun p => (⟨p.1, p.2⟩ : RouteDeparture)))).map
      (fun x => x.route)).Nodup := by
    have hpk := hperm.map (fun x : RouteDeparture => x.route)
    rw [hkeys] at hpk
    exact (List.Perm.nodup_iff hpk).mpr hnd
  exact find?_key_of_nodup _ _ hnodupKeys hmemRoutes

/-- Claim C1 (amended): provided that distinct claimable route ids have
pairwise-distinct display names, every route's final departures value in
the aggregator output is `round (c / 7)` where `c` is the trip count
contributed by the single nearest sorted stop that serves the route —
never a sum over several stops. -/
theorem c1_amended_nearest_wins (db : ScheduleDB) (stops : List NearbyStop)
    (rid : String) (c : Nat)
    (hinj : ∀ r1 ∈ (sortStops stops).flatMap
        (fun s => (countsAt db (sortStops stops) s).map Prod.fst),
      ∀ r2 ∈ (sortStops stops).flatMap
        (fun s => (countsAt db (sortStops stops) s).map Prod.fst),
      displayName (arsOf db (sortStops stops)) r1 =
        displayName (arsOf db (sortStops stops)) r2 → r1 = r2)
    (hfirst : (sortStops stops).findSome?
        (fun s => (countsAt db (sortStops stops) s).lookup rid) = some c)
    (hne : stops ≠ []) :
    (getNearbyStopTimesFromStops db stops).routes.find?
        (fun e => decide (e.route = displayName (arsOf db (sortStops stops)) rid)) =
      some ⟨displayName (arsOf db (sortStops stops)) rid, dailyDeparturesOf c⟩ :=
  aggregator_find?_nearest db stops rid c hinj hfirst hne

/-- Concrete schedule data for the C1 witness: one stop, one route with
two weekly trips. -/
def c1WitDb : ScheduleDB :=
  { stop_times := [⟨"t1", "A"⟩, ⟨"t2", "A"⟩]
    trips := [⟨"t1", "r1"⟩, ⟨"t2", "r1"⟩]
    routes := [⟨"r1", some "W"⟩] }

/-- The C1 witness stop list. -/
def c1WitStops : List NearbyStop := [⟨"A", 1, "Stop A", 0, 0, 100⟩]

/-- Witness for the amended C1 at a concrete input. -/
theorem c1_amended_nearest_wins_witness :
    (getNearbyStopTimesFromStops c1WitDb c1WitStops).routes.find?
        (fun e => decide (e.route =
          displayName (arsOf c1WitDb (sortStops c1WitStops)) "r1")) =
      some ⟨displayName (arsOf c1WitDb (sortStops c1WitStops)) "r1",
        dailyDeparturesOf 2⟩ :=
  c1_amended_nearest_wins c1WitDb c1WitStops "r1" 2 (by decide) (by decide) (by decide)

/-- Concrete schedule data for C5: distinct route ids `rA` (7 weekly
trips at stop `A`, 50 m) and `rB` (14 weekly trips at stop `B`, 150 m)
share the display short name `S`. -/
def c5Db : ScheduleDB :=
  { stop_times := [⟨"p1", "A"⟩, ⟨"p2", "A"⟩, ⟨"p3", "A"⟩, ⟨"p4", "A"⟩, ⟨"p5", "A"⟩, ⟨"p6", "A"⟩, ⟨"p7", "A"⟩, ⟨"q1", "B"⟩, ⟨"q2", "B"⟩, ⟨"q3", "B"⟩, ⟨"q4", "B"⟩, ⟨"q5", "B"⟩, ⟨"q6", "B"⟩, ⟨"q7", "B"⟩, ⟨"q8", "B"⟩, ⟨"q9", "B"⟩, ⟨"q10", "B"⟩, ⟨"q11", "B"⟩, ⟨"q12", "B"⟩, ⟨"q13", "B"⟩, ⟨"q14", "B"⟩]
    trips := [⟨"p1", "rA"⟩, ⟨"p2", "rA"⟩, ⟨"p3", "rA"⟩, ⟨"p4", "rA"⟩, ⟨"p5", "rA"⟩, ⟨"p6", "rA"⟩, ⟨"p7", "rA"⟩, ⟨"q1", "rB"⟩, ⟨"q2", "rB"⟩, ⟨"q3", "rB"⟩, ⟨"q4", "rB"⟩, ⟨"q5", "rB"⟩, ⟨"q6", "rB"⟩, ⟨"q7", "rB"⟩, ⟨"q8", "rB"⟩, ⟨"q9", "rB"⟩, ⟨"q10", "rB"⟩, ⟨"q11", "rB"⟩, ⟨"q12", "rB"⟩, ⟨"q13", "rB"⟩, ⟨"q14", "rB"⟩]
    routes := [⟨"rA", some "S"⟩, ⟨"rB", some "S"⟩] }

/-- The C5 input stop list. -/
def c5Stops : List NearbyStop :=
  [⟨"A", 1, "Stop A", 0, 0, 50⟩, ⟨"B", 2, "Stop B", 0, 0, 150⟩]
set_option maxRecDepth 4000 in
/-- Claim C5: a route-name collision at the output key exists.  With the
concrete input above, the two distinct route ids `rA` and `rB` share
short name `S` and are first served by the two different stops `A` and
`B`; the claimed-route set (keyed by route id) admits both, yet the
output map (keyed by display name) has a single entry whose value
`round (14/7) = 2` comes from the later-processed, farther route `rB`,
overwriting the nearer route's `round (7/7) = 1`. -/
theorem c5_route_name_collision :
    ("rA" : String) ≠ "rB" ∧
    (walkOf c5Db (sortStops c5Stops)).pr = ["rA", "rB"] ∧
    (sortStops c5Stops).find?
        (fun s => ((countsAt c5Db (sortStops c5Stops) s).lookup "rA").isSome) =
      some ⟨"A", 1, "Stop A", 0, 0, 50⟩ ∧
    (sortStops c5Stops).find?
        (fun s => ((countsAt c5Db (sortStops c5Stops) s).lookup "rB").isSome) =
      some ⟨"B", 2, "Stop B", 0, 0, 150⟩ ∧
    dailyDeparturesOf 7 = 1 ∧
    dailyDeparturesOf 14 = 2 ∧
    (getNearbyStopTimesFromStops c5Db c5Stops).routes = [⟨"S", 2⟩] ∧
    (getNearbyStopTimesFromStops c5Db c5Stops).totalRoutes = 1 := by decide

/-- Concrete schedule data for the C6 counterexample: route `rZ`
(display `Z`) and route `rA` (display `A`) each with one weekly trip at
the single stop, `rZ`'s trip listed first. -/
def c6Db : ScheduleDB :=
  { stop_times := [⟨"tz", "A"⟩, ⟨"ta", "A"⟩]
    trips := [⟨"tz", "rZ"⟩, ⟨"ta", "rA"⟩]
    routes := [⟨"rZ", some "Z"⟩, ⟨"rA", some "A"⟩] }

/-- The C6 counterexample stop list. -/
def c6Stops : List NearbyStop := [⟨"A", 1, "Stop A", 0, 0, 100⟩]

/-- Claim C6 counterexample: both routes tie at 0 departures, and the
output lists `Z` before `A` — claim order, not display-name ascending
(`"A" < "Z"` in the character order), so the stated tie-break is
violated. -/
theorem c6_counterexample :
    (getNearbyStopTimesFromStops c6Db c6Stops).routes = [⟨"Z", 0⟩, ⟨"A", 0⟩] ∧
    ("A".data < "Z".data) ∧
    ¬ List.Pairwise (fun a b : RouteDeparture =>
        a.departures = b.departures → a.route.data ≤ b.route.data)
      (getNearbyStopTimesFromStops c6Db c6Stops).routes := by decide

/-- Claim C6 (amended): the aggregator's routes list is sorted by
departures descending, and ties are deterministic — they keep the order
in which the walk first claimed the routes (JavaScript's stable sort
with the `b.departures - a.departures` comparator), not display-name
ascending: for every departure count `n`, the output entries with value
`n` are exactly the claim-ordered entries with value `n`. -/
theorem c6_amended_output_ordering (db : ScheduleDB) (stops : List NearbyStop) :
    List.Sorted depGe (getNearbyStopTimesFromStops db stops).routes ∧
    ∀ n : Nat,
      (getNearbyStopTimesFromStops db stops).routes.filter
          (fun e => decide (e.departures = n)) =
        ((walkOf db (sortStops stops)).rd.map
            (fun p => (⟨p.1, p.2⟩ : RouteDeparture))).filter
          (fun e => decide (e.departures = n)) := by
  unfold getNearbyStopTimesFromStops
  by_cases h : stops.length = 0
  · rw [if_pos h]
    have hstops : stops = [] := List.length_eq_zero.mp h
    subst hstops
    exact ⟨List.sorted_nil, fun n => rfl⟩
  · rw [if_neg h]
    constructor
    · show List.Sorted depGe (List.insertionSort depGe _)
      exact List.sorted_insertionSort depGe _
    · intro n
      show (List.insertionSort depGe _).filter _ = _
      exact filter_insertionSort_dep n _

/-- Concrete schedule data for the C10 counterexample: route `rX`
(2 weekly trips at the nearest stop `A`) and route `rY` (9 weekly trips
at the farther stop `B`) share display name `N`. -/
def c10CexDb : ScheduleDB :=
  { stop_times := [⟨"x1", "A"⟩, ⟨"x2", "A"⟩, ⟨"y1", "B"⟩, ⟨"y2", "B"⟩, ⟨"y3", "B"⟩,
      ⟨"y4", "B"⟩, ⟨"y5", "B"⟩, ⟨"y6", "B"⟩, ⟨"y7", "B"⟩, ⟨"y8", "B"⟩, ⟨"y9", "B"⟩]
    trips := [⟨"x1", "rX"⟩, ⟨"x2", "rX"⟩, ⟨"y1", "rY"⟩, ⟨"y2", "rY"⟩, ⟨"y3", "rY"⟩,
      ⟨"y4", "rY"⟩, ⟨"y5", "rY"⟩, ⟨"y6", "rY"⟩, ⟨"y7", "rY"⟩, ⟨"y8", "rY"⟩, ⟨"y9", "rY"⟩]
    routes := [⟨"rX", some "N"⟩, ⟨"rY", some "N"⟩] }

/-- The C10 counterexample stop list. -/
def c10CexStops : List NearbyStop :=
  [⟨"A", 1, "Stop A", 0, 0, 100⟩, ⟨"B", 2, "Stop B", 0, 0, 300⟩]

set_option maxRecDepth 4000 in
/-- Claim C10 counterexample: `rX` is claimed with winning trip count 2
(`round (2/7) = 0`), yet no zero-departure entry appears in the output —
the single entry under the shared display name `N` holds 1, the value of
the other claimed route `rY` — and `totalRoutes` is 1 although both
routes were claimed, so the claimed route neither appears with value 0
nor increments `totalRoutes`. -/
theorem c10_counterexample :
    (walkOf c10CexDb (sortStops c10CexStops)).pr = ["rX", "rY"] ∧
    (sortStops c10CexStops).findSome?
        (fun s => (countsAt c10CexDb (sortStops c10CexStops) s).lookup "rX") = some 2 ∧
    dailyDeparturesOf 2 = 0 ∧
    (getNearbyStopTimesFromStops c10CexDb c10CexStops).routes = [⟨"N", 1⟩] ∧
    (getNearbyStopTimesFromStops c10CexDb c10CexStops).totalRoutes = 1 ∧
    ¬ (∃ e ∈ (getNearbyStopTimesFromStops c10CexDb c10CexStops).routes,
        e.departures = 0) := by decide

/-- Claim C10 (amended): provided that distinct claimable route ids have
pairwise-distinct display names, a claimed route whose winning (nearest
serving) stop contributes between 1 and 3 weekly trips is reported with
`departures = round (c/7) = 0`, yet still appears in the routes list
(under its display name) and is counted by `totalRoutes`, while
`totalDepartures` is the sum of the listed values — to which such a
route contributes nothing. -/
theorem c10_zero_departure_routes (db : ScheduleDB) (stops : List NearbyStop)
    (rid : String) (c : Nat)
    (hinj : ∀ r1 ∈ (sortStops stops).flatMap
        (fun s => (countsAt db (sortStops stops) s).map Prod.fst),
      ∀ r2 ∈ (sortStops stops).flatMap
        (fun s => (countsAt db (sortStops stops) s).map Prod.fst),
      displayName (arsOf db (sortStops stops)) r1 =
        displayName (arsOf db (sortStops stops)) r2 → r1 = r2)
    (hfirst : (sortStops stops).findSome?
        (fun s => (countsAt db (sortStops stops) s).lookup rid) = some c)
    (h1 : 1 ≤ c) (h3 : c ≤ 3) (hne : stops ≠ []) :
    dailyDeparturesOf c = 0 ∧
    (⟨displayName (arsOf db (sortStops stops)) rid, 0⟩ : RouteDeparture) ∈
      (getNearbyStopTimesFromStops db stops).routes ∧
    (getNearbyStopTimesFromStops db stops).totalRoutes =
      (getNearbyStopTimesFromStops db stops).routes.length ∧
    (getNearbyStopTimesFromStops db stops).totalDepartures =
      ((getNearbyStopTimesFromStops db stops).routes.map (fun e => e.departures)).sum := by
  have hdd : dailyDeparturesOf c = 0 := by
    interval_cases c
    · decide
    · decide
    · decide
  have hfind := aggregator_find?_nearest db stops rid c hinj hfirst hne
  refine ⟨hdd, ?_, ?_, ?_⟩
  · exact List.mem_of_find?_eq_some (hdd ▸ hfind)
  · unfold getNearbyStopTimesFromStops
    by_cases h : stops.length = 0
    · rw [if_pos h]
      rfl
    · rw [if_neg h]
      rfl
  · unfold getNearbyStopTimesFromStops
    by_cases h : stops.length = 0
    · rw [if_pos h]
      rfl
    · rw [if_neg h]
      rfl

/-- Concrete schedule data for the C10 witness: one stop, one route with
three weekly trips. -/
def c10WitDb : ScheduleDB :=
  { stop_times := [⟨"u1", "A"⟩, ⟨"u2", "A"⟩, ⟨"u3", "A"⟩]
    trips := [⟨"u1", "r9"⟩, ⟨"u2", "r9"⟩, ⟨"u3", "r9"⟩]
    routes := [⟨"r9", some "N9"⟩] }

/-- The C10 witness stop list. -/
def c10WitStops : List NearbyStop := [⟨"A", 1, "Stop A", 0, 0, 100⟩]

/-- Witness for C10 at a concrete input with a 3-weekly-trip route. -/
theorem c10_zero_departure_routes_witness :
    dailyDeparturesOf 3 = 0 ∧
    (⟨displayName (arsOf c10WitDb (sortStops c10WitStops)) "r9", 0⟩ : RouteDeparture) ∈
      (getNearbyStopTimesFromStops c10WitDb c10WitStops).routes ∧
    (getNearbyStopTimesFromStops c10WitDb c10WitStops).totalRoutes =
      (getNearbyStopTimesFromStops c10WitDb c10WitStops).routes.length ∧
    (getNearbyStopTimesFromStops c10WitDb c10WitStops).totalDepartures =
      ((getNearbyStopTimesFromStops c10WitDb c10WitStops).routes.map
        (fun e => e.departures)).sum :=
  c10_zero_departure_routes c10WitDb c10WitStops "r9" 3
    (by decide) (by decide) (by decide) (by decide) (by decide)

/-! ## Unresolvable trips (C8) -/

/-- The stop_times documents the batched query returns. -/
def stFiltered (db : ScheduleDB) (stopIds : List String) : List StopTimeDoc :=
  db.stop_times.filter (fun st => decide (st.stop_id ∈ stopIds))

/-- The deduplicated trip-id set of one stop, as the batched query
groups it. -/
def tripListOf (db : ScheduleDB) (stopIds : List String) (sid : String) : List String :=
  dedupFirst
    (((stFiltered db stopIds).filter (fun st => decide (st.stop_id = sid))).map (·.trip_id))

theorem allStopTrips_eq_graph (db : ScheduleDB) (stopIds : List String) :
    allStopTrips db stopIds =
      (dedupFirst ((stFiltered db stopIds).map (·.stop_id))).map
        (fun k => (k, tripListOf db stopIds k)) := rfl

/-- The per-stop lookup of query 1 is the stop's grouped trip list (and
the `|| []` default collapses the no-documents case to the same value). -/
theorem lookup_allStopTrips (db : ScheduleDB) (stopIds : List String) (sid : String) :
    ((allStopTrips db stopIds).lookup sid).getD [] = tripListOf db stopIds sid := by
  rw [allStopTrips_eq_graph]
  by_cases h : sid ∈ dedupFirst ((stFiltered db stopIds).map (·.stop_id))
  · rw [lookup_graph _ h]
    rfl
  · have hnone : ((dedupFirst ((stFiltered db stopIds).map (·.stop_id))).map
        (fun k => (k, tripListOf db stopIds k))).lookup sid = none := by
      apply lookup_eq_none_of_not_mem_keys
      rw [List.map_map]
      intro hmem
      rcases List.mem_map.mp hmem with ⟨k, hk, hke⟩
      have : k = sid := hke
      rw [this] at hk
      exact h hk
    rw [hnone]
    have hempty : ((stFiltered db stopIds).filter
        (fun st => decide (st.stop_id = sid))) = [] := by
      rw [List.filter_eq_nil_iff]
      intro st hst
      simp only [decide_eq_true_eq]
      intro heq
      exact h (mem_dedupFirst.mpr (List.mem_map.mpr ⟨st, hst, heq⟩))
    rw [tripListOf, hempty]
    rfl

theorem mem_allTripIdsOf_astOf (db : ScheduleDB) (ss : List NearbyStop) (x : String) :
    x ∈ allTripIdsOf (astOf db ss) ↔
      ∃ rec ∈ db.stop_times, rec.trip_id = x ∧ rec.stop_id ∈ stopIdsOf ss := by
  unfold allTripIdsOf astOf
  rw [mem_dedupFirst, List.mem_flatMap]
  constructor
  · rintro ⟨pair, hpair, hx⟩
    rw [allStopTrips_eq_graph] at hpair
    rcases List.mem_map.mp hpair with ⟨k, _, hke⟩
    rw [← hke] at hx
    have hx' : x ∈ tripListOf db (stopIdsOf ss) k := hx
    rw [tripListOf, mem_dedupFirst] at hx'
    rcases List.mem_map.mp hx' with ⟨st, hst, hste⟩
    have h1 := (List.mem_filter.mp hst).1
    have h2 := List.mem_filter.mp h1
    exact ⟨st, h2.1, hste, by simp at h2; exact h2.2⟩
  · rintro ⟨rec, hrec, hrx, hrs⟩
    have hrecF : rec ∈ stFiltered db (stopIdsOf ss) :=
      List.mem_filter.mpr ⟨hrec, by simpa⟩
    have hsid : rec.stop_id ∈ dedupFirst ((stFiltered db (stopIdsOf ss)).map (·.stop_id)) :=
      mem_dedupFirst.mpr (List.mem_map.mpr ⟨rec, hrecF, rfl⟩)
    refine ⟨(rec.stop_id, tripListOf db (stopIdsOf ss) rec.stop_id), ?_, ?_⟩
    · rw [allStopTrips_eq_graph]
      exact List.mem_map.mpr ⟨rec.stop_id, hsid, rfl⟩
    · show x ∈ tripListOf db (stopIdsOf ss) rec.stop_id
      rw [tripListOf, mem_dedupFirst]
      exact List.mem_map.mpr ⟨rec, List.mem_filter.mpr ⟨hrecF, by simp⟩, hrx⟩

/-- Adding stop-time records whose trip ids match no trip record leaves
query 2 (route groups) unchanged. -/
theorem arsOf_append_unresolvable (db : ScheduleDB) (extra : List StopTimeDoc)
    (ss : List NearbyStop)
    (hun : ∀ e ∈ extra, ∀ t ∈ db.trips, t.trip_id ≠ e.trip_id) :
    arsOf ⟨db.stop_times ++ extra, db.trips, db.routes⟩ ss = arsOf db ss := by
  have hfilter : db.trips.filter (fun t => decide (t.trip_id ∈
        allTripIdsOf (astOf ⟨db.stop_times ++ extra, db.trips, db.routes⟩ ss))) =
      db.trips.filter (fun t => decide (t.trip_id ∈ allTripIdsOf (astOf db ss))) := by
    apply List.filter_congr
    intro t ht
    rw [decide_eq_decide]
    rw [mem_allTripIdsOf_astOf, mem_allTripIdsOf_astOf]
    constructor
    · rintro ⟨rec, hrec, hrx, hrs⟩
      rcases List.mem_append.mp hrec with h | h
      · exact ⟨rec, h, hrx, hrs⟩
      · exact absurd hrx.symm (hun rec h t ht)
    · rintro ⟨rec, hrec, hrx, hrs⟩
      exact ⟨rec, List.mem_append.mpr (Or.inl hrec), hrx, hrs⟩
  show allRoutesOf ⟨db.stop_times ++ extra, db.trips, db.routes⟩
      (allTripIdsOf (astOf ⟨db.stop_times ++ extra, db.trips, db.routes⟩ ss)) =
    allRoutesOf db (allTripIdsOf (astOf db ss))
  unfold allRoutesOf
  rw [hfilter]

theorem lookup_foldl_mapSet_ids (rid t : String) :
    ∀ (ids : List String) (m : List (String × String)),
      (ids.foldl (fun m' tid => mapSet m' tid rid) m).lookup t ≠ none →
      m.lookup t ≠ none ∨ t ∈ ids
  | [], _, h => Or.inl h
  | i :: is, m, h => by
    rw [List.foldl_cons] at h
    rcases lookup_foldl_mapSet_ids rid t is (mapSet m i rid) h with h' | h'
    · by_cases hti : t = i
      · exact Or.inr (by rw [hti]; exact List.mem_cons_self i is)
      · rw [lookup_mapSet_ne _ _ hti] at h'
        exact Or.inl h'
    · exact Or.inr (List.mem_cons_of_mem i h')

theorem lookup_foldl_groups_ne_none {t : String} :
    ∀ (ars : List RouteGroup) (m : List (String × String)),
      ((ars.foldl (fun m g => g.trip_ids.foldl (fun m' tid => mapSet m' tid g.rid) m)
        m).lookup t ≠ none) →
      m.lookup t ≠ none ∨ ∃ g ∈ ars, t ∈ g.trip_ids
  | [], _, h => Or.inl h
  | g :: gs, m, h => by
    rw [List.foldl_cons] at h
    rcases lookup_foldl_groups_ne_none gs _ h with h' | h'
    · rcases lookup_foldl_mapSet_ids g.rid t g.trip_ids m h' with h'' | h''
      · exact Or.inl h''
      · exact Or.inr ⟨g, List.mem_cons_self g gs, h''⟩
    · rcases h' with ⟨g', hg', ht⟩
      exact Or.inr ⟨g', List.mem_cons_of_mem g hg', ht⟩

/-- A trip id with no trip record never resolves in the trip-to-route
map. -/
theorem lookup_trmOf_none (db : ScheduleDB) (ss : List NearbyStop) {t : String}
    (hno : ∀ tr ∈ db.trips, tr.trip_id ≠ t) :
    (trmOf db ss).lookup t = none := by
  by_contra h
  unfold trmOf tripRouteMapOf at h
  rcases lookup_foldl_groups_ne_none (arsOf db ss) [] h with h' | h'
  · exact h' rfl
  · rcases h' with ⟨g, hg, ht⟩
    simp only [arsOf, allRoutesOf] at hg
    rcases List.mem_map.mp hg with ⟨rid, _, hge⟩
    rw [← hge] at ht
    have ht' := mem_dedupFirst.mp ht
    rcases List.mem_map.mp ht' with ⟨tr, htr, htre⟩
    have htr1 := (List.mem_filter.mp htr).1
    have htr2 := (List.mem_filter.mp htr1).1
    exact hno tr htr2 htre

theorem foldl_routeCountsStep_none (trm : List (String × String)) :
    ∀ (l : List String) (m : List (String × Nat)),
      (∀ t ∈ l, trm.lookup t = none) → l.foldl (routeCountsStep trm) m = m
  | [], _, _ => rfl
  | t :: ts, m, h => by
    rw [List.foldl_cons]
    have hst : routeCountsStep trm m t = m := by
      unfold routeCountsStep
      rw [h t (List.mem_cons_self t ts)]
    rw [hst]
    exact foldl_routeCountsStep_none trm ts m (fun x hx => h x (List.mem_cons_of_mem t hx))

/-- Unresolvable trip ids at the end of a stop's trip list contribute to
no route count. -/
theorem routeCountsOf_append_none (trm : List (String × String)) (l₁ l₂ : List String)
    (h : ∀ t ∈ l₂, trm.lookup t = none) :
    routeCountsOf trm (l₁ ++ l₂) = routeCountsOf trm l₁ := by
  unfold routeCountsOf
  rw [List.foldl_append]
  exact foldl_routeCountsStep_none trm l₂ _ h

theorem stFiltered_append (db : ScheduleDB) (extra : List StopTimeDoc)
    (stopIds : List String) :
    stFiltered ⟨db.stop_times ++ extra, db.trips, db.routes⟩ stopIds =
      stFiltered db stopIds ++ extra.filter (fun st => decide (st.stop_id ∈ stopIds)) := by
  show (db.stop_times ++ extra).filter (fun st => decide (st.stop_id ∈ stopIds)) = _
  rw [List.filter_append]
  rfl

theorem tripListOf_append_exists (db : ScheduleDB) (extra : List StopTimeDoc)
    (stopIds : List String) (sid : String) :
    ∃ tail, tripListOf ⟨db.stop_times ++ extra, db.trips, db.routes⟩ stopIds sid =
        tripListOf db stopIds sid ++ tail ∧
      ∀ t ∈ tail, ∃ e ∈ extra, e.trip_id = t := by
  unfold tripListOf
  rw [stFiltered_append, List.filter_append, List.map_append, dedupFirst_append]
  refine ⟨_, rfl, ?_⟩
  intro t ht
  have ht1 := (List.mem_filter.mp ht).1
  rw [mem_dedupFirst] at ht1
  rcases List.mem_map.mp ht1 with ⟨st, hst, hste⟩
  have hst1 := (List.mem_filter.mp hst).1
  have hst2 := (List.mem_filter.mp hst1).1
  exact ⟨st, hst2, hste⟩

theorem foldl_congr_fn {α β : Type} {f g : β → α → β} :
    ∀ (l : List α) (b : β), (∀ acc, ∀ x ∈ l, f acc x = g acc x) →
      l.foldl f b = l.foldl g b
  | [], _, _ => rfl
  | x :: xs, b, h => by
    rw [List.foldl_cons, List.foldl_cons, h b x (List.mem_cons_self x xs)]
    exact foldl_congr_fn xs _ (fun acc y hy => h acc y (List.mem_cons_of_mem x hy))

/-- Claim C8: a trip id found at a stop whose route identity cannot be
resolved from the trip/route record sets is excluded from the output —
it contributes to no route's departure count — and does not abort the
batch: appending any stop-time records whose trip ids match no trip
record leaves the aggregator output (routes, totals and CSV) unchanged,
so the remaining trips and routes are aggregated exactly as before. -/
theorem c8_unresolvable_trips_excluded (db : ScheduleDB) (extra : List StopTimeDoc)
    (stops : List NearbyStop)
    (hun : ∀ e ∈ extra, ∀ t ∈ db.trips, t.trip_id ≠ e.trip_id) :
    getNearbyStopTimesFromStops ⟨db.stop_times ++ extra, db.trips, db.routes⟩ stops =
      getNearbyStopTimesFromStops db stops := by
  unfold getNearbyStopTimesFromStops
  by_cases h : stops.length = 0
  · rw [if_pos h, if_pos h]
  · rw [if_neg h, if_neg h]
    have hars := arsOf_append_unresolvable db extra (sortStops stops) hun
    have htrm : trmOf ⟨db.stop_times ++ extra, db.trips, db.routes⟩ (sortStops stops) =
        trmOf db (sortStops stops) := by
      unfold trmOf
      rw [hars]
    have hcounts : ∀ sid : String,
        routeCountsOf (trmOf db (sortStops stops))
          (((astOf ⟨db.stop_times ++ extra, db.trips, db.routes⟩
            (sortStops stops)).lookup sid).getD []) =
        routeCountsOf (trmOf db (sortStops stops))
          (((astOf db (sortStops stops)).lookup sid).getD []) := by
      intro sid
      show routeCountsOf (trmOf db (sortStops stops))
          (((allStopTrips ⟨db.stop_times ++ extra, db.trips, db.routes⟩
            (stopIdsOf (sortStops stops))).lookup sid).getD []) =
        routeCountsOf (trmOf db (sortStops stops))
          (((allStopTrips db (stopIdsOf (sortStops stops))).lookup sid).getD [])
      rw [lookup_allStopTrips, lookup_allStopTrips]
      rcases tripListOf_append_exists db extra (stopIdsOf (sortStops stops)) sid with
        ⟨tail, heq, htail⟩
      rw [heq]
      apply routeCountsOf_append_none
      intro t ht
      rcases htail t ht with ⟨e, he, het⟩
      apply lookup_trmOf_none
      intro tr htr hcontra
      exact hun e he tr htr (hcontra.trans het.symm)
    unfold aggregateSorted walkOf walkStops
    have hfold : (sortStops stops).foldl
        (processStop (trmOf ⟨db.stop_times ++ extra, db.trips, db.routes⟩ (sortStops stops))
          (arsOf ⟨db.stop_times ++ extra, db.trips, db.routes⟩ (sortStops stops))
          (astOf ⟨db.stop_times ++ extra, db.trips, db.routes⟩ (sortStops stops)))
        ⟨[], []⟩ =
        (sortStops stops).foldl
          (processStop (trmOf db (sortStops stops)) (arsOf db (sortStops stops))
            (astOf db (sortStops stops))) ⟨[], []⟩ := by
      apply foldl_congr_fn
      intro acc s _
      unfold processStop
      rw [hars, htrm, hcounts s.stop_id]
    rw [hfold]

/-- Witness for C8: appending one stop-time record with an unresolvable
trip id leaves the output unchanged. -/
theorem c8_unresolvable_trips_excluded_witness :
    getNearbyStopTimesFromStops
        ⟨(⟨[⟨"t1", "A"⟩], [⟨"t1", "r1"⟩], [⟨"r1", some "R"⟩]⟩ : ScheduleDB).stop_times ++
            [⟨"ghost", "A"⟩],
          (⟨[⟨"t1", "A"⟩], [⟨"t1", "r1"⟩], [⟨"r1", some "R"⟩]⟩ : ScheduleDB).trips,
          (⟨[⟨"t1", "A"⟩], [⟨"t1", "r1"⟩], [⟨"r1", some "R"⟩]⟩ : ScheduleDB).routes⟩
        [⟨"A", 1, "Stop A", 0, 0, 100⟩] =
      getNearbyStopTimesFromStops ⟨[⟨"t1", "A"⟩], [⟨"t1", "r1"⟩], [⟨"r1", some "R"⟩]⟩
        [⟨"A", 1, "Stop A", 0, 0, 100⟩] :=
  c8_unresolvable_trips_excluded ⟨[⟨"t1", "A"⟩], [⟨"t1", "r1"⟩], [⟨"r1", some "R"⟩]⟩
    [⟨"ghost", "A"⟩] [⟨"A", 1, "Stop A", 0, 0, 100⟩] (by decide)
